import Mathlib

/-!
Verification of the credential store, OAuth state cache, authorization
callback persistence and token refresh path of the gmail-mcp-server
repository.

The SQLite table `gmail_credentials` is modelled as a `List AccountRow`
(one element per row, composite primary key `(mcpUserId, email)`), and the
table `oauth_states` as a `List OAuthStateRow` (primary key `state`).
`created_at` / `updated_at` are ISO-8601 strings in the database whose
lexicographic order agrees with time order; they are modelled as `Int`
timestamps.  SQL `UPDATE ... WHERE` is modelled by `mapUpdate`, SQL
`DELETE ... WHERE` by `removeMatching`.
-/

namespace GmailMcp

/-- One row of the `gmail_credentials` table (the `GmailCredentials`
record of `src/store/interface.ts`). -/
structure AccountRow where
  mcpUserId : String
  email : String
  googleUserId : String
  accessToken : String
  refreshToken : String
  expiryDate : Int
  scope : String
  isDefault : Bool
  createdAt : Int
  updatedAt : Int
  deriving Repr, DecidableEq

/-- The argument of `saveCredentials`
(`Omit<GmailCredentials, 'createdAt' | 'updatedAt'>`). -/
structure CredInput where
  mcpUserId : String
  googleUserId : String
  email : String
  accessToken : String
  refreshToken : String
  expiryDate : Int
  scope : String
  isDefault : Bool
  deriving Repr, DecidableEq

/-- Summary returned by `listAccounts` (`AccountInfo`). -/
structure AccountInfo where
  email : String
  isDefault : Bool
  scopes : List String
  connectedAt : Int
  deriving Repr, DecidableEq

/-- One row of the `oauth_states` table (`OAuthState`). -/
structure OAuthStateRow where
  state : String
  mcpUserId : String
  expiresAt : Int
  scopes : List String
  codeVerifier : String
  deriving Repr, DecidableEq

/-- SQL `UPDATE`: apply `f` to every row matched by `q`. -/
def mapUpdate (q : α → Bool) (f : α → α) (l : List α) : List α :=
  l.map (fun a => if q a then f a else a)

/-- SQL `DELETE`: remove every row matched by `q`. -/
def removeMatching (q : α → Bool) (l : List α) : List α :=
  l.filter (fun a => !(q a))

/-- `WHERE mcp_user_id = ?`. -/
def userP (uid : String) (r : AccountRow) : Bool :=
  r.mcpUserId == uid

/-- `WHERE mcp_user_id = ? AND email = ?` (the composite primary key). -/
def keyMatch (uid email : String) (r : AccountRow) : Bool :=
  r.mcpUserId == uid && r.email == email

/-- `WHERE mcp_user_id = ? AND is_default = 1`. -/
def defP (uid : String) (r : AccountRow) : Bool :=
  r.mcpUserId == uid && r.isDefault

/-- All rows of a principal (`SELECT * ... WHERE mcp_user_id = ?`). -/
def userRows (uid : String) (st : List AccountRow) : List AccountRow :=
  st.filter (userP uid)

/-- `SELECT ... WHERE mcp_user_id = ? AND email = ?` followed by `.get()`
(first matching row). -/
def findRow (uid email : String) (st : List AccountRow) : Option AccountRow :=
  st.find? (keyMatch uid email)

/-- Number of rows belonging to a principal. -/
def countUser (uid : String) (st : List AccountRow) : Nat :=
  st.countP (userP uid)

/-- Number of rows of a principal flagged as default. -/
def countDefaults (uid : String) (st : List AccountRow) : Nat :=
  st.countP (defP uid)

/-- `UPDATE gmail_credentials SET is_default = 0 WHERE mcp_user_id = ?`. -/
def clearDefaults (uid : String) (st : List AccountRow) : List AccountRow :=
  mapUpdate (userP uid) (fun r => { r with isDefault := false }) st

/-- The `ON CONFLICT ... DO UPDATE SET` clause of `saveCredentials`: every
column except `created_at` is replaced. -/
def saveUpd (now : Int) (c : CredInput) (isDef : Bool) (r : AccountRow) :
    AccountRow :=
  { r with
    googleUserId := c.googleUserId
    accessToken := c.accessToken
    refreshToken := c.refreshToken
    expiryDate := c.expiryDate
    scope := c.scope
    isDefault := isDef
    updatedAt := now }

/-- The freshly inserted row of `saveCredentials`. -/
def newRowOf (now : Int) (c : CredInput) (isDef : Bool) : AccountRow :=
  { mcpUserId := c.mcpUserId
    email := c.email
    googleUserId := c.googleUserId
    accessToken := c.accessToken
    refreshToken := c.refreshToken
    expiryDate := c.expiryDate
    scope := c.scope
    isDefault := isDef
    createdAt := now
    updatedAt := now }

/-- `SqliteTokenStore.saveCredentials`: transactionally decide the default
flag, clear sibling defaults when needed, then upsert on the composite
key (the `ON CONFLICT` update clause does not touch `created_at`). -/
def saveCredentials (now : Int) (c : CredInput) (st : List AccountRow) :
    List AccountRow :=
  let existingAccount := findRow c.mcpUserId c.email st
  let existingCount := (userRows c.mcpUserId st).length
  let isDef : Bool :=
    match existingAccount with
    | some r => c.isDefault || r.isDefault
    | none => existingCount == 0 || c.isDefault
  let st1 := if isDef ∧ 0 < existingCount then clearDefaults c.mcpUserId st else st
  match existingAccount with
  | some _ => mapUpdate (keyMatch c.mcpUserId c.email) (saveUpd now c isDef) st1
  | none => st1 ++ [newRowOf now c isDef]

/-- `SELECT ... ORDER BY created_at ASC LIMIT 1` over a row list
(first row among those with minimal `created_at`). -/
def minByCreated : List AccountRow → Option AccountRow
  | [] => none
  | r :: rs =>
      match minByCreated rs with
      | none => some r
      | some b => if b.createdAt < r.createdAt then some b else some r

/-- `SET is_default = 1, updated_at = ?` (used by the promotion step of
`deleteCredentials` and by `setDefaultAccount`). -/
def setDefaultUpd (now : Int) (r : AccountRow) : AccountRow :=
  { r with isDefault := true, updatedAt := now }

/-- The promotion `UPDATE` of `deleteCredentials`: flag the oldest
remaining account of the principal as default. -/
def promoteOldest (now : Int) (uid : String) (st : List AccountRow) :
    List AccountRow :=
  match minByCreated (userRows uid st) with
  | none => st
  | some p => mapUpdate (keyMatch uid p.email) (setDefaultUpd now) st

/-- `SqliteTokenStore.deleteCredentials`: with an email, delete that row
and, when it was the default, promote the oldest remaining account in the
same transaction; without an email, delete all rows of the principal. -/
def deleteCredentials (now : Int) (uid : String) (email : Option String)
    (st : List AccountRow) : List AccountRow :=
  match email with
  | none => removeMatching (userP uid) st
  | some e =>
      let wasDefault := findRow uid e st
      let st1 := removeMatching (keyMatch uid e) st
      match wasDefault with
      | some r => if r.isDefault then promoteOldest now uid st1 else st1
      | none => st1

/-- `SqliteTokenStore.setDefaultAccount`: `none` models the thrown
`Account not found` error (the transaction leaves the table unchanged). -/
def setDefaultAccount (now : Int) (uid email : String)
    (st : List AccountRow) : Option (List AccountRow) :=
  if (findRow uid email st).isSome then
    some (mapUpdate (keyMatch uid email) (setDefaultUpd now)
      (clearDefaults uid st))
  else
    none

/-- `SqliteTokenStore.updateAccessToken`. -/
def updateAccessToken (now : Int) (uid email accessToken : String)
    (expiryDate : Int) (refreshToken : Option String)
    (st : List AccountRow) : List AccountRow :=
  mapUpdate (keyMatch uid email)
    (fun r =>
      match refreshToken with
      | some rt =>
          { r with accessToken := accessToken, expiryDate := expiryDate,
                   refreshToken := rt, updatedAt := now }
      | none =>
          { r with accessToken := accessToken, expiryDate := expiryDate,
                   updatedAt := now }) st

/-- `ORDER BY is_default DESC, created_at ASC`. -/
def accountLe (a b : AccountRow) : Bool :=
  (a.isDefault && !b.isDefault) ||
    (a.isDefault == b.isDefault && decide (a.createdAt ≤ b.createdAt))

/-- `SqliteTokenStore.listAccounts`. -/
def listAccounts (uid : String) (st : List AccountRow) : List AccountInfo :=
  ((userRows uid st).mergeSort accountLe).map
    (fun r =>
      { email := r.email
        isDefault := r.isDefault
        scopes := r.scope.splitOn " "
        connectedAt := r.createdAt })

/-- `SELECT ... ORDER BY updated_at DESC LIMIT 1` over a row list
(first row among those with maximal `updated_at`). -/
def mostRecentlyUpdated : List AccountRow → Option AccountRow
  | [] => none
  | r :: rs =>
      match mostRecentlyUpdated rs with
      | none => some r
      | some b => if r.updatedAt < b.updatedAt then some b else some r

/-- `SqliteTokenStore.getCredentials`: a specific account by email, or the
default-flagged account with a most-recently-updated fallback. -/
def getCredentials (uid : String) (email : Option String)
    (st : List AccountRow) : Option AccountRow :=
  match email with
  | some e => findRow uid e st
  | none =>
      match st.find? (defP uid) with
      | some r => some r
      | none => mostRecentlyUpdated (userRows uid st)

/-- `SqliteTokenStore.saveOAuthState` (plain `INSERT`). -/
def saveOAuthState (s : OAuthStateRow) (st : List OAuthStateRow) :
    List OAuthStateRow :=
  st ++ [s]

/-- `SqliteTokenStore.consumeOAuthState`: select an unexpired row by token
and delete it in the same transaction; returns the row and the new table. -/
def consumeOAuthState (now : Int) (s : String) (st : List OAuthStateRow) :
    Option OAuthStateRow × List OAuthStateRow :=
  match st.find? (fun r => r.state == s && decide (now < r.expiresAt)) with
  | none => (none, st)
  | some r => (some r, removeMatching (fun r2 => r2.state == s) st)

/-- `SqliteTokenStore.cleanupExpiredStates`
(`DELETE FROM oauth_states WHERE expires_at <= ?`). -/
def cleanupExpiredStates (now : Int) (st : List OAuthStateRow) :
    List OAuthStateRow :=
  removeMatching (fun r => decide (r.expiresAt ≤ now)) st

/-- `REFRESH_THRESHOLD_MS = 5 * 60 * 1000` of `src/gmail/client.ts`. -/
def REFRESH_THRESHOLD_MS : Int := 5 * 60 * 1000

/-- The provider token payload used by the refresh / exchange calls. -/
structure ProviderTokens where
  accessToken : Option String
  refreshToken : Option String
  expiryDate : Option Int
  scope : Option String
  deriving Repr, DecidableEq

/-- Outcome of `oauth2Client.refreshAccessToken()`: a token payload, or a
rejection carrying an error message. -/
inductive RefreshResponse where
  | ok (tokens : ProviderTokens)
  | err (message : String)
  deriving Repr, DecidableEq

/-- The two error classes thrown by the refresh path
(`NotAuthorizedError` and `GmailApiError`). -/
inductive ClientError where
  | notAuthorized (message : String)
  | gmailApiError (message : String)
  deriving Repr, DecidableEq

/-- Character-list prefix test (kernel-computable). -/
def leadsWith : List Char → List Char → Bool
  | [], _ => true
  | _ :: _, [] => false
  | a :: as, b :: bs => a == b && leadsWith as bs

/-- Character-list substring test (kernel-computable). -/
def hasSub (pat : List Char) : List Char → Bool
  | [] => leadsWith pat []
  | a :: as => leadsWith pat (a :: as) || hasSub pat as

/-- JavaScript `errorMessage.includes('invalid_grant')`. -/
def containsInvalidGrant (msg : String) : Bool :=
  hasSub "invalid_grant".toList msg.toList

/-- `refreshCredentials` of `src/gmail/client.ts`: on success persist the
new access token (and rotated refresh token) via `updateAccessToken`; a
response with no access token is a thrown error caught by the same
handler; `invalid_grant` deletes exactly this account and reports
re-authorization; anything else is a retryable `GmailApiError` with no
store write.  `enc` models `encrypt(_, encryptionKey)`. -/
def refreshCredentials (enc : String → String) (now : Int)
    (resp : RefreshResponse) (credentials : AccountRow)
    (st : List AccountRow) : List AccountRow × Except ClientError AccountRow :=
  match resp with
  | .ok tokens =>
      match tokens.accessToken with
      | none =>
          (st, .error (.gmailApiError "Token refresh failed: No access token returned"))
      | some newAccess =>
          let newRefreshToken := tokens.refreshToken.map enc
          let newExpiry := tokens.expiryDate.getD (now + 3600000)
          (updateAccessToken now credentials.mcpUserId credentials.email
             newAccess newExpiry newRefreshToken st,
           .ok { credentials with
                   accessToken := newAccess
                   expiryDate := newExpiry
                   refreshToken := newRefreshToken.getD credentials.refreshToken })
  | .err msg =>
      if containsInvalidGrant msg then
        (deleteCredentials now credentials.mcpUserId (some credentials.email) st,
         .error (.notAuthorized
           ("Gmail access for " ++ credentials.email ++ " revoked. Please re-authorize.")))
      else
        (st, .error (.gmailApiError ("Token refresh failed: " ++ msg)))

instance {ε α : Type} [DecidableEq ε] [DecidableEq α] :
    DecidableEq (Except ε α) := fun x y =>
  match x, y with
  | .ok a, .ok b =>
      if h : a = b then isTrue (by rw [h]) else isFalse (by simp [h])
  | .error a, .error b =>
      if h : a = b then isTrue (by rw [h]) else isFalse (by simp [h])
  | .ok _, .error _ => isFalse (by simp)
  | .error _, .ok _ => isFalse (by simp)

/-- Result of `getValidCredentials`: the store after the call, the
returned credentials or thrown error, and whether the refresh path ran. -/
structure GetValidResult where
  store : List AccountRow
  result : Except ClientError AccountRow
  refreshCalled : Bool
  deriving Repr, DecidableEq

/-- `getValidCredentials` of `src/gmail/client.ts`: look the account up,
refresh when `expiryDate - now < REFRESH_THRESHOLD_MS`, otherwise return
the stored credentials untouched. -/
def getValidCredentials (enc : String → String) (now : Int) (uid : String)
    (email : Option String) (resp : RefreshResponse)
    (st : List AccountRow) : GetValidResult :=
  match getCredentials uid email st with
  | none =>
      match email with
      | some e =>
          ⟨st, .error (.notAuthorized
            ("Gmail account " ++ e ++
             " not connected. Use gmail.listAccounts to see connected accounts.")), false⟩
      | none =>
          ⟨st, .error (.notAuthorized
            "Gmail not connected. Use gmail.authorize to link your Gmail account."), false⟩
  | some credentials =>
      if credentials.expiryDate - now < REFRESH_THRESHOLD_MS then
        let r := refreshCredentials enc now resp credentials st
        ⟨r.1, r.2, true⟩
      else
        ⟨st, .ok credentials, false⟩

/-- The `GMAIL_SCOPES` mapping of `src/auth/googleOAuth.ts`; an unmapped
name renders as the empty string, as `Array.prototype.join` renders the
`undefined` produced by indexing with an unknown key. -/
def gmailScopeUrl (s : String) : String :=
  if s == "gmail.readonly" then "https://www.googleapis.com/auth/gmail.readonly"
  else if s == "gmail.labels" then "https://www.googleapis.com/auth/gmail.labels"
  else if s == "gmail.compose" then "https://www.googleapis.com/auth/gmail.compose"
  else ""

/-- `storedState.scopes.map(s => GMAIL_SCOPES[s]).join(' ')`. -/
def joinedScopeString (names : List String) : String :=
  String.intercalate " " (names.map gmailScopeUrl)

/-- The persistence step of `callbackHandler` (lines 212-230 of
`src/auth/googleOAuth.ts`): with both tokens present, store the account
with `isDefault := isFirstAccount` and the scope string derived from the
consumed state's requested scope names; on a missing token the handler
replies with an error and writes nothing. -/
def completeAuthSave (enc : String → String) (now : Int)
    (storedState : OAuthStateRow) (tokens : ProviderTokens)
    (profileEmail : String) (st : List AccountRow) : List AccountRow :=
  match tokens.accessToken, tokens.refreshToken with
  | some accessTok, some refreshTok =>
      let isFirstAccount := (listAccounts storedState.mcpUserId st).length == 0
      saveCredentials now
        { mcpUserId := storedState.mcpUserId
          googleUserId := profileEmail
          email := profileEmail
          accessToken := accessTok
          refreshToken := enc refreshTok
          expiryDate := tokens.expiryDate.getD (now + 3600000)
          scope := joinedScopeString storedState.scopes
          isDefault := isFirstAccount } st
  | _, _ => st

/-- A credential-store operation of the kind quantified over by the
single-default invariant. -/
inductive StoreOp where
  | save (now : Int) (c : CredInput)
  | del (now : Int) (uid : String) (email : Option String)
  | setDef (now : Int) (uid : String) (email : String)
  deriving Repr, DecidableEq

/-- Apply one operation; a failed `setDefaultAccount` throws inside the
transaction and leaves the table unchanged. -/
def applyOp (st : List AccountRow) : StoreOp → List AccountRow
  | .save now c => saveCredentials now c st
  | .del now uid email => deleteCredentials now uid email st
  | .setDef now uid email => (setDefaultAccount now uid email st).getD st

/-- Run a sequence of store operations from the empty (freshly created)
table. -/
def runOps (ops : List StoreOp) : List AccountRow :=
  ops.foldl applyOp []

/-- An operation on the `oauth_states` table that can follow a consume. -/
inductive StateOp where
  | consume (now : Int) (token : String)
  | cleanup (now : Int)
  deriving Repr, DecidableEq

/-- Apply one state-table operation (the store component of a consume). -/
def applyStateOp (st : List OAuthStateRow) : StateOp → List OAuthStateRow
  | .consume now token => (consumeOAuthState now token st).2
  | .cleanup now => cleanupExpiredStates now st

/-- Run a sequence of state-table operations. -/
def runStateOps (st : List OAuthStateRow) (ops : List StateOp) :
    List OAuthStateRow :=
  ops.foldl applyStateOp st

/-- A generic credential input used to state the concrete connect
scenarios of the testable properties. -/
def mkCred (u e : String) (d : Bool) : CredInput :=
  { mcpUserId := u
    googleUserId := e
    email := e
    accessToken := "token"
    refreshToken := "refresh"
    expiryDate := 0
    scope := "scope"
    isDefault := d }

/-- A generic consumed OAuth state used to state connect scenarios. -/
def mkState (u : String) : OAuthStateRow :=
  { state := "state-token"
    mcpUserId := u
    expiresAt := 10
    scopes := ["gmail.readonly"]
    codeVerifier := "verifier" }

/-- A generic successful token-exchange payload. -/
def mkTokens : ProviderTokens :=
  { accessToken := some "access"
    refreshToken := some "refresh"
    expiryDate := some 99
    scope := none }

/-! ### Generic facts about the SQL-statement combinators -/

theorem countP_mapUpdate (p q : α → Bool) (f : α → α) (l : List α) :
    (mapUpdate q f l).countP p
      = l.countP (fun a => if q a then p (f a) else p a) := by
  unfold mapUpdate
  rw [List.countP_map]
  apply List.countP_congr
  intro a _
  by_cases h : q a <;> simp [h, Function.comp]

theorem countP_removeMatching (p q : α → Bool) (l : List α) :
    (removeMatching q l).countP p + l.countP (fun a => p a && q a)
      = l.countP p := by
  induction l with
  | nil => simp [removeMatching]
  | cons a tl ih =>
      unfold removeMatching at ih ⊢
      by_cases h : q a <;> by_cases h2 : p a <;>
        simp [List.filter_cons, h, h2, List.countP_cons] <;> omega

theorem countP_and_eq_zero (p q : α → Bool) (l : List α)
    (h : l.find? q = none) : l.countP (fun a => p a && q a) = 0 := by
  rw [List.countP_eq_zero]
  intro a ha
  have := (List.find?_eq_none.mp h) a ha
  simp [this]

theorem countP_and_of_unique (p q : α → Bool) (l : List α) (r0 : α)
    (hf : l.find? q = some r0) (h1 : l.countP q ≤ 1) :
    l.countP (fun a => p a && q a) = if p r0 then 1 else 0 := by
  induction l with
  | nil => simp at hf
  | cons x tl ih =>
      by_cases hq : q x
      · rw [List.find?_cons_of_pos _ hq] at hf
        injection hf with hf
        subst hf
        rw [List.countP_cons_of_pos _ _ (by simp [hq])] at h1
        have h0 : tl.countP q = 0 := by omega
        have hz : tl.countP (fun a => p a && q a) = 0 := by
          rw [List.countP_eq_zero]
          intro a ha
          have := (List.countP_eq_zero.mp h0) a ha
          simp [this]
        rw [List.countP_cons, hz]
        by_cases hp : p x <;> simp [hp, hq]
      · rw [List.find?_cons_of_neg _ hq] at hf
        rw [List.countP_cons_of_neg _ _ (by simp [hq])] at h1
        rw [List.countP_cons_of_neg _ _ (by simp [hq])]
        exact ih hf h1

theorem eq_of_countP_le_one {q : α → Bool} {l : List α}
    (h : l.countP q ≤ 1) {a b : α} (ha : a ∈ l) (hqa : q a)
    (hb : b ∈ l) (hqb : q b) : a = b := by
  induction l with
  | nil => cases ha
  | cons x tl ih =>
      rw [List.countP_cons] at h
      have htl : tl.countP q ≤ 1 := le_trans (Nat.le_add_right _ _) h
      rcases List.mem_cons.mp ha with rfl | ha2
      · rcases List.mem_cons.mp hb with rfl | hb2
        · rfl
        · exfalso
          have h1 : tl.countP q = 0 := by
            rw [if_pos hqa] at h
            omega
          exact (List.countP_eq_zero.mp h1) b hb2 hqb
      · rcases List.mem_cons.mp hb with rfl | hb2
        · exfalso
          have h1 : tl.countP q = 0 := by
            rw [if_pos hqb] at h
            omega
          exact (List.countP_eq_zero.mp h1) a ha2 hqa
        · exact ih htl ha2 hb2

/-! ### Predicate unfolding -/

@[simp] theorem userP_eq_true_iff {uid : String} {r : AccountRow} :
    userP uid r = true ↔ r.mcpUserId = uid := by
  simp [userP]

@[simp] theorem keyMatch_eq_true_iff {uid email : String} {r : AccountRow} :
    keyMatch uid email r = true ↔ r.mcpUserId = uid ∧ r.email = email := by
  simp [keyMatch]

@[simp] theorem defP_eq_true_iff {uid : String} {r : AccountRow} :
    defP uid r = true ↔ r.mcpUserId = uid ∧ r.isDefault = true := by
  simp [defP]

/-! ### Store invariants -/

/-- Uniqueness of the composite primary key `(mcp_user_id, email)`. -/
def KeysOk (st : List AccountRow) : Prop :=
  st.Pairwise (fun a b => ¬(a.mcpUserId = b.mcpUserId ∧ a.email = b.email))

/-- Every principal owning at least one row owns exactly one default. -/
def SingleDefault (st : List AccountRow) : Prop :=
  ∀ uid, 0 < countUser uid st → countDefaults uid st = 1

theorem userRows_ne_nil_iff {uid : String} {st : List AccountRow} :
    userRows uid st ≠ [] ↔ 0 < countUser uid st := by
  rw [countUser, List.countP_eq_length_filter, List.length_pos]
  exact Iff.rfl

theorem countP_key_le_one (uid email : String) (st : List AccountRow)
    (h : KeysOk st) : st.countP (keyMatch uid email) ≤ 1 := by
  induction st with
  | nil => simp
  | cons r tl ih =>
      rw [KeysOk, List.pairwise_cons] at h
      rw [List.countP_cons]
      by_cases hq : keyMatch uid email r
      · have h0 : tl.countP (keyMatch uid email) = 0 := by
          rw [List.countP_eq_zero]
          intro b hb hqb
          rw [keyMatch_eq_true_iff] at hq hqb
          exact h.1 b hb ⟨hq.1.trans hqb.1.symm, hq.2.trans hqb.2.symm⟩
        simp [h0, hq]
      · simp [hq]
        exact ih h.2

theorem find?_congr {p q : α → Bool} {l : List α}
    (h : ∀ a ∈ l, p a = q a) : l.find? p = l.find? q := by
  induction l with
  | nil => rfl
  | cons x tl ih =>
      have hx := h x (List.mem_cons_self x tl)
      by_cases hp : p x
      · rw [List.find?_cons_of_pos _ hp, List.find?_cons_of_pos _ (hx ▸ hp)]
      · rw [List.find?_cons_of_neg _ hp,
          List.find?_cons_of_neg _ (by rw [← hx]; exact hp)]
        exact ih (fun a ha => h a (List.mem_cons_of_mem _ ha))

theorem mem_mapUpdate_ex {l : List α} {q : α → Bool} {f : α → α} {r : α}
    (h : r ∈ mapUpdate q f l) : ∃ b ∈ l, r = if q b then f b else b := by
  rw [mapUpdate] at h
  rcases List.mem_map.mp h with ⟨b, hb, hr⟩
  exact ⟨b, hb, hr.symm⟩

/-! ### Effects of the individual SQL statements -/

theorem countUser_clearDefaults (u u2 : String) (st : List AccountRow) :
    countUser u (clearDefaults u2 st) = countUser u st := by
  rw [countUser, countUser, clearDefaults, countP_mapUpdate]
  apply List.countP_congr
  intro r _
  by_cases h : userP u2 r <;> simp [h, userP]

theorem countDefaults_clearDefaults_self (u : String) (st : List AccountRow) :
    countDefaults u (clearDefaults u st) = 0 := by
  rw [countDefaults, clearDefaults, countP_mapUpdate, List.countP_eq_zero]
  intro r _
  by_cases h : r.mcpUserId = u <;> simp [defP, userP, h]

theorem countDefaults_clearDefaults_ne {u u2 : String} (h : u ≠ u2)
    (st : List AccountRow) :
    countDefaults u (clearDefaults u2 st) = countDefaults u st := by
  rw [countDefaults, countDefaults, clearDefaults, countP_mapUpdate]
  apply List.countP_congr
  intro r _
  by_cases h2 : r.mcpUserId = u2 <;> simp [defP, userP, h2, Ne.symm h]

theorem countP_keyMatch_clearDefaults (u e u2 : String)
    (st : List AccountRow) :
    (clearDefaults u2 st).countP (keyMatch u e)
      = st.countP (keyMatch u e) := by
  rw [clearDefaults, countP_mapUpdate]
  apply List.countP_congr
  intro r _
  by_cases h : userP u2 r <;> simp [keyMatch, h]

theorem isDefault_clearDefaults {u : String} {st : List AccountRow}
    {r : AccountRow} (hr : r ∈ clearDefaults u st) (hu : r.mcpUserId = u) :
    r.isDefault = false := by
  rcases mem_mapUpdate_ex hr with ⟨b, hb, rfl⟩
  by_cases h2 : userP u b
  · simp [h2]
  · rw [if_neg h2] at hu ⊢
    simp only [userP_eq_true_iff] at h2
    exact absurd hu h2

theorem find?_mapUpdate_key (u e : String) (q : AccountRow → Bool)
    (f : AccountRow → AccountRow)
    (hf : ∀ r, (f r).mcpUserId = r.mcpUserId ∧ (f r).email = r.email)
    (st : List AccountRow) :
    (mapUpdate q f st).find? (keyMatch u e)
      = (st.find? (keyMatch u e)).map (fun r => if q r then f r else r) := by
  rw [mapUpdate, List.find?_map]
  congr 1
  apply find?_congr
  intro a _
  by_cases h : q a
  · simp [Function.comp, h, keyMatch, (hf a).1, (hf a).2]
  · simp [Function.comp, h]

theorem keysOk_mapUpdate {q : AccountRow → Bool} {f : AccountRow → AccountRow}
    (hf : ∀ r, (f r).mcpUserId = r.mcpUserId ∧ (f r).email = r.email)
    {st : List AccountRow} (h : KeysOk st) : KeysOk (mapUpdate q f st) := by
  rw [KeysOk, mapUpdate, List.pairwise_map]
  apply h.imp
  intro a b hab
  have ka : (if q a then f a else a).mcpUserId = a.mcpUserId := by
    by_cases h2 : q a <;> simp [h2, (hf a).1]
  have ka2 : (if q a then f a else a).email = a.email := by
    by_cases h2 : q a <;> simp [h2, (hf a).2]
  have kb : (if q b then f b else b).mcpUserId = b.mcpUserId := by
    by_cases h2 : q b <;> simp [h2, (hf b).1]
  have kb2 : (if q b then f b else b).email = b.email := by
    by_cases h2 : q b <;> simp [h2, (hf b).2]
  rw [ka, ka2, kb, kb2]
  exact hab

theorem keysOk_removeMatching {q : AccountRow → Bool} {st : List AccountRow}
    (h : KeysOk st) : KeysOk (removeMatching q st) :=
  List.Pairwise.sublist (List.filter_sublist st) h

theorem mem_userRows {uid : String} {st : List AccountRow} {r : AccountRow} :
    r ∈ userRows uid st ↔ r ∈ st ∧ r.mcpUserId = uid := by
  simp [userRows, List.mem_filter]

theorem minByCreated_ne_none {r : AccountRow} {rs : List AccountRow} :
    minByCreated (r :: rs) ≠ none := by
  cases h2 : minByCreated rs <;> simp [minByCreated, h2]
  split <;> simp

theorem minByCreated_mem {l : List AccountRow} {r : AccountRow}
    (h : minByCreated l = some r) : r ∈ l := by
  induction l with
  | nil => simp [minByCreated] at h
  | cons x tl ih =>
      unfold minByCreated at h
      cases h2 : minByCreated tl with
      | none =>
          rw [h2] at h
          injection h with h
          subst h
          exact List.mem_cons_self x tl
      | some b =>
          rw [h2] at h
          dsimp only at h
          by_cases h3 : b.createdAt < x.createdAt
          · rw [if_pos h3] at h
            injection h with h
            subst h
            exact List.mem_cons_of_mem _ (ih h2)
          · rw [if_neg h3] at h
            injection h with h
            subst h
            exact List.mem_cons_self x tl

theorem length_userRows (uid : String) (st : List AccountRow) :
    (userRows uid st).length = countUser uid st := by
  rw [countUser, List.countP_eq_length_filter]
  rfl

theorem countDefaults_le_countUser (uid : String) (st : List AccountRow) :
    countDefaults uid st ≤ countUser uid st :=
  List.countP_mono_left (fun r _ h => by
    rw [defP_eq_true_iff] at h
    simp [userP, h.1])

theorem countP_key_eq_one {uid e : String} {st : List AccountRow}
    {r0 : AccountRow} (hK : KeysOk st) (hr0 : r0 ∈ st)
    (hk : keyMatch uid e r0 = true) : st.countP (keyMatch uid e) = 1 := by
  have h1 := countP_key_le_one uid e st hK
  have h2 : 0 < st.countP (keyMatch uid e) :=
    List.countP_pos_iff.mpr ⟨r0, hr0, hk⟩
  omega

theorem countUser_mapUpdate {u : String} {q : AccountRow → Bool}
    {f : AccountRow → AccountRow}
    (hf : ∀ r, (f r).mcpUserId = r.mcpUserId) (st : List AccountRow) :
    countUser u (mapUpdate q f st) = countUser u st := by
  rw [countUser, countUser, countP_mapUpdate]
  apply List.countP_congr
  intro r _
  by_cases h : q r <;> simp [h, userP, hf r]

theorem countDefaults_mapUpdate_ne {u u2 e2 : String}
    {f : AccountRow → AccountRow}
    (hf : ∀ r, (f r).mcpUserId = r.mcpUserId) (hne : u ≠ u2)
    (st : List AccountRow) :
    countDefaults u (mapUpdate (keyMatch u2 e2) f st) = countDefaults u st := by
  rw [countDefaults, countDefaults, countP_mapUpdate]
  apply List.countP_congr
  intro r _
  by_cases h : keyMatch u2 e2 r
  · have h1 := (keyMatch_eq_true_iff.mp h).1
    simp [defP, h, hf r, h1, Ne.symm hne]
  · simp [h]

theorem countDefaults_mapUpdate_set_true {uid e : String}
    {st1 : List AccountRow} (f : AccountRow → AccountRow)
    (hfd : ∀ r, (f r).mcpUserId = r.mcpUserId ∧ (f r).isDefault = true)
    (hzero : countDefaults uid st1 = 0) :
    countDefaults uid (mapUpdate (keyMatch uid e) f st1)
      = st1.countP (keyMatch uid e) := by
  rw [countDefaults, countP_mapUpdate]
  apply List.countP_congr
  intro r hr
  by_cases hk : keyMatch uid e r
  · have h1 := (keyMatch_eq_true_iff.mp hk).1
    simp [hk, defP, (hfd r).1, (hfd r).2, h1]
  · have hz : defP uid r = false := by
      rw [countDefaults, List.countP_eq_zero] at hzero
      exact Bool.eq_false_iff.mpr (hzero r hr)
    simp [hk, hz]

theorem saveCredentials_of_existing (now : Int) (c : CredInput)
    (st : List AccountRow) (r0 : AccountRow)
    (hx : findRow c.mcpUserId c.email st = some r0) :
    saveCredentials now c st
      = mapUpdate (keyMatch c.mcpUserId c.email)
          (saveUpd now c (c.isDefault || r0.isDefault))
          (if (c.isDefault || r0.isDefault)
              ∧ 0 < (userRows c.mcpUserId st).length
           then clearDefaults c.mcpUserId st else st) := by
  simp only [saveCredentials, hx]

theorem saveCredentials_of_new (now : Int) (c : CredInput)
    (st : List AccountRow)
    (hx : findRow c.mcpUserId c.email st = none) :
    saveCredentials now c st
      = (if ((userRows c.mcpUserId st).length == 0 || c.isDefault)
             ∧ 0 < (userRows c.mcpUserId st).length
         then clearDefaults c.mcpUserId st else st)
        ++ [newRowOf now c
              ((userRows c.mcpUserId st).length == 0 || c.isDefault)] := by
  simp only [saveCredentials, hx]

theorem countDefaults_append_one (u3 : String) (l : List AccountRow)
    (x : AccountRow) :
    countDefaults u3 (l ++ [x])
      = countDefaults u3 l + (if defP u3 x then 1 else 0) := by
  simp [countDefaults, List.countP_append, List.countP_cons]

theorem countUser_append_one (u3 : String) (l : List AccountRow)
    (x : AccountRow) :
    countUser u3 (l ++ [x])
      = countUser u3 l + (if userP u3 x then 1 else 0) := by
  simp [countUser, List.countP_append, List.countP_cons]

theorem keysOk_clearDefaults {u : String} {st : List AccountRow}
    (h : KeysOk st) : KeysOk (clearDefaults u st) :=
  @keysOk_mapUpdate (userP u) (fun r => { r with isDefault := false })
    (fun _ => ⟨rfl, rfl⟩) st h

theorem keysOk_save_map (u e : String) (now : Int) (c : CredInput)
    (isDef : Bool) {st : List AccountRow} (h : KeysOk st) :
    KeysOk (mapUpdate (keyMatch u e) (saveUpd now c isDef) st) :=
  @keysOk_mapUpdate (keyMatch u e) (saveUpd now c isDef)
    (fun _ => ⟨rfl, rfl⟩) st h

theorem keysOk_setDef_map (u e : String) (now : Int)
    {st : List AccountRow} (h : KeysOk st) :
    KeysOk (mapUpdate (keyMatch u e) (setDefaultUpd now) st) :=
  @keysOk_mapUpdate (keyMatch u e) (setDefaultUpd now)
    (fun _ => ⟨rfl, rfl⟩) st h

theorem countUser_save_map (u u2 e : String) (now : Int) (c : CredInput)
    (isDef : Bool) (st : List AccountRow) :
    countUser u (mapUpdate (keyMatch u2 e) (saveUpd now c isDef) st)
      = countUser u st :=
  @countUser_mapUpdate u (keyMatch u2 e) (saveUpd now c isDef)
    (fun _ => rfl) st

theorem countUser_setDef_map (u u2 e : String) (now : Int)
    (st : List AccountRow) :
    countUser u (mapUpdate (keyMatch u2 e) (setDefaultUpd now) st)
      = countUser u st :=
  @countUser_mapUpdate u (keyMatch u2 e) (setDefaultUpd now)
    (fun _ => rfl) st

theorem countDefaults_save_map_ne {u u2 : String} (e : String) (now : Int)
    (c : CredInput) (isDef : Bool) (hne : u ≠ u2) (st : List AccountRow) :
    countDefaults u (mapUpdate (keyMatch u2 e) (saveUpd now c isDef) st)
      = countDefaults u st :=
  @countDefaults_mapUpdate_ne u u2 e (saveUpd now c isDef)
    (fun _ => rfl) hne st

theorem countDefaults_setDef_map_ne {u u2 : String} (e : String) (now : Int)
    (hne : u ≠ u2) (st : List AccountRow) :
    countDefaults u (mapUpdate (keyMatch u2 e) (setDefaultUpd now) st)
      = countDefaults u st :=
  @countDefaults_mapUpdate_ne u u2 e (setDefaultUpd now)
    (fun _ => rfl) hne st

theorem save_preserves (now : Int) (c : CredInput) (st : List AccountRow)
    (hK : KeysOk st) (hS : SingleDefault st) :
    KeysOk (saveCredentials now c st)
      ∧ SingleDefault (saveCredentials now c st) := by
  have hcu : (userRows c.mcpUserId st).length = countUser c.mcpUserId st :=
    length_userRows _ _
  cases hx : findRow c.mcpUserId c.email st with
  | some r0 =>
      have hr0 : r0 ∈ st := List.mem_of_find?_eq_some hx
      have hk0 : keyMatch c.mcpUserId c.email r0 = true := List.find?_some hx
      have hk0' := keyMatch_eq_true_iff.mp hk0
      have hpos : 0 < (userRows c.mcpUserId st).length := by
        rw [hcu, countUser]
        exact List.countP_pos_iff.mpr ⟨r0, hr0, by simp [userP, hk0'.1]⟩
      rw [saveCredentials_of_existing now c st r0 hx]
      cases hD : (c.isDefault || r0.isDefault) with
      | true =>
          rw [if_pos ⟨rfl, hpos⟩]
          constructor
          · exact keysOk_save_map _ _ _ _ _ (keysOk_clearDefaults hK)
          · intro u2 hupos
            by_cases hu : u2 = c.mcpUserId
            · subst hu
              rw [countDefaults_mapUpdate_set_true (saveUpd now c true)
                    (fun r => ⟨rfl, rfl⟩)
                    (countDefaults_clearDefaults_self c.mcpUserId st),
                 countP_keyMatch_clearDefaults]
              exact countP_key_eq_one hK hr0 hk0
            · rw [countDefaults_save_map_ne _ _ _ _ hu,
                 countDefaults_clearDefaults_ne hu]
              rw [countUser_save_map, countUser_clearDefaults] at hupos
              exact hS u2 hupos
      | false =>
          have hrf : r0.isDefault = false := by
            cases hrd : r0.isDefault
            · rfl
            · rw [hrd] at hD; simp at hD
          rw [if_neg (by simp)]
          constructor
          · exact keysOk_save_map _ _ _ _ _ hK
          · intro u2 hupos
            rw [countUser_save_map] at hupos
            by_cases hu : u2 = c.mcpUserId
            · subst hu
              have hle := countP_key_le_one c.mcpUserId c.email st hK
              have heq : countDefaults c.mcpUserId
                  (mapUpdate (keyMatch c.mcpUserId c.email)
                    (saveUpd now c false) st)
                    = countDefaults c.mcpUserId st := by
                rw [countDefaults, countDefaults, countP_mapUpdate]
                apply List.countP_congr
                intro r hr
                by_cases hk : keyMatch c.mcpUserId c.email r
                · have hreq : r = r0 := eq_of_countP_le_one hle hr hk hr0 hk0
                  subst hreq
                  simp [hk, defP, saveUpd, hrf]
                · simp [hk]
              rw [heq]
              exact hS _ hupos
            · rw [countDefaults_save_map_ne _ _ _ _ hu]
              exact hS u2 hupos
  | none =>
      have hnok : ∀ a ∈ st,
          ¬(a.mcpUserId = c.mcpUserId ∧ a.email = c.email) := by
        intro a ha hcon
        exact (List.find?_eq_none.mp hx a ha) (keyMatch_eq_true_iff.mpr hcon)
      rw [saveCredentials_of_new now c st hx]
      have hmemkey : ∀ a ∈ (if ((userRows c.mcpUserId st).length == 0 || c.isDefault)
              ∧ 0 < (userRows c.mcpUserId st).length
            then clearDefaults c.mcpUserId st else st),
          ¬(a.mcpUserId = c.mcpUserId ∧ a.email = c.email) := by
        intro a ha
        split at ha
        · rcases mem_mapUpdate_ex ha with ⟨b, hb, rfl⟩
          by_cases hub : userP c.mcpUserId b
          · rw [if_pos hub]
            exact hnok b hb
          · rw [if_neg hub]
            exact hnok b hb
        · exact hnok a ha
      have hstK : KeysOk (if ((userRows c.mcpUserId st).length == 0 || c.isDefault)
              ∧ 0 < (userRows c.mcpUserId st).length
            then clearDefaults c.mcpUserId st else st) := by
        split
        · exact keysOk_clearDefaults hK
        · exact hK
      constructor
      · rw [KeysOk, List.pairwise_append]
        refine ⟨hstK, List.pairwise_singleton _ _, ?_⟩
        intro a ha b hb
        rw [List.mem_singleton] at hb
        subst hb
        exact hmemkey a ha
      · intro u2 hupos
        by_cases hu : u2 = c.mcpUserId
        · subst hu
          by_cases h0 : countUser c.mcpUserId st = 0
          · have hlen : (userRows c.mcpUserId st).length = 0 := by
              rw [hcu]; exact h0
            have hbe : ((userRows c.mcpUserId st).length == 0) = true := by
              rw [hlen]; rfl
            rw [hbe, Bool.true_or] at hupos ⊢
            rw [if_neg (by rw [hlen]; exact fun hcon => lt_irrefl 0 hcon.2)]
              at hupos ⊢
            have hz : countDefaults c.mcpUserId st = 0 := by
              have := countDefaults_le_countUser c.mcpUserId st
              omega
            rw [countDefaults_append_one, hz]
            simp [defP, newRowOf]
          · have hbe : ((userRows c.mcpUserId st).length == 0) = false := by
              rw [hcu]
              cases hc : countUser c.mcpUserId st with
              | zero => exact absurd hc h0
              | succ n => rfl
            have hlpos : 0 < (userRows c.mcpUserId st).length := by
              rw [hcu]; omega
            rw [hbe, Bool.false_or] at hupos ⊢
            by_cases hcD : c.isDefault = true
            · rw [if_pos ⟨hcD, hlpos⟩] at hupos ⊢
              rw [countDefaults_append_one,
                 countDefaults_clearDefaults_self]
              simp [defP, newRowOf, hcD]
            · have hcD2 : c.isDefault = false := by
                revert hcD
                cases c.isDefault <;> simp
              rw [if_neg (by simp [hcD2])] at hupos ⊢
              rw [countDefaults_append_one]
              have hnd : defP c.mcpUserId (newRowOf now c c.isDefault) = false := by
                simp [defP, newRowOf, hcD2]
              rw [hnd]
              simp only [if_neg Bool.false_ne_true]
              have h1 : countDefaults c.mcpUserId st = 1 := hS _ (by omega)
              omega
        · have hnu2 : userP u2 (newRowOf now c
              ((userRows c.mcpUserId st).length == 0 || c.isDefault)) = false := by
            simp [userP, newRowOf]
            exact Ne.symm hu
          have hnd2 : defP u2 (newRowOf now c
              ((userRows c.mcpUserId st).length == 0 || c.isDefault)) = false := by
            simp [defP, newRowOf]
            intro hcon
            exact absurd hcon.symm hu
          rw [countUser_append_one, hnu2] at hupos
          rw [countDefaults_append_one, hnd2]
          simp only [if_neg Bool.false_ne_true] at hupos ⊢
          by_cases hcond : (((userRows c.mcpUserId st).length == 0 || c.isDefault)
              ∧ 0 < (userRows c.mcpUserId st).length)
          · rw [if_pos hcond] at hupos ⊢
            rw [countUser_clearDefaults] at hupos
            rw [countDefaults_clearDefaults_ne hu]
            exact hS u2 (by omega)
          · rw [if_neg hcond] at hupos ⊢
            exact hS u2 (by omega)

theorem delete_preserves (now : Int) (uid : String) (email : Option String)
    (st : List AccountRow) (hK : KeysOk st) (hS : SingleDefault st) :
    KeysOk (deleteCredentials now uid email st)
      ∧ SingleDefault (deleteCredentials now uid email st) := by
  cases email with
  | none =>
      simp only [deleteCredentials]
      constructor
      · exact keysOk_removeMatching hK
      · intro u2 hupos
        have hcu := countP_removeMatching (userP u2) (userP uid) st
        have hcd := countP_removeMatching (defP u2) (userP uid) st
        by_cases hu : u2 = uid
        · exfalso
          have h1 : st.countP (fun a => userP u2 a && userP uid a)
              = countUser u2 st := by
            rw [countUser]
            apply List.countP_congr
            intro r _
            simp [userP, hu]
          rw [countUser] at hupos h1
          omega
        · have h1 : st.countP (fun a => userP u2 a && userP uid a) = 0 := by
            rw [List.countP_eq_zero]
            intro a _ hcon
            rw [Bool.and_eq_true, userP_eq_true_iff, userP_eq_true_iff] at hcon
            exact hu (hcon.1.symm.trans hcon.2)
          have h2 : st.countP (fun a => defP u2 a && userP uid a) = 0 := by
            rw [List.countP_eq_zero]
            intro a _ hcon
            rw [Bool.and_eq_true, defP_eq_true_iff, userP_eq_true_iff] at hcon
            exact hu (hcon.1.1.symm.trans hcon.2)
          rw [countDefaults]
          rw [countUser] at hupos
          have h3 : countDefaults u2 st = 1 := hS u2 (by rw [countUser]; omega)
          rw [countDefaults] at h3
          omega
  | some e =>
      cases hx : findRow uid e st with
      | none =>
          simp only [deleteCredentials, hx]
          constructor
          · exact keysOk_removeMatching hK
          · intro u2 hupos
            have hcu := countP_removeMatching (userP u2) (keyMatch uid e) st
            have hcd := countP_removeMatching (defP u2) (keyMatch uid e) st
            have h1 := countP_and_eq_zero (userP u2) (keyMatch uid e) st hx
            have h2 := countP_and_eq_zero (defP u2) (keyMatch uid e) st hx
            rw [countDefaults]
            rw [countUser] at hupos
            have h3 : countDefaults u2 st = 1 := hS u2 (by rw [countUser]; omega)
            rw [countDefaults] at h3
            omega
      | some r0 =>
          simp only [deleteCredentials, hx]
          have hr0 : r0 ∈ st := List.mem_of_find?_eq_some hx
          have hk0 : keyMatch uid e r0 = true := List.find?_some hx
          have hk0' := keyMatch_eq_true_iff.mp hk0
          have hle := countP_key_le_one uid e st hK
          have hKst1 : KeysOk (removeMatching (keyMatch uid e) st) :=
            keysOk_removeMatching hK
          have hcu : ∀ u2, (removeMatching (keyMatch uid e) st).countP (userP u2)
              + (if userP u2 r0 then 1 else 0) = st.countP (userP u2) := by
            intro u2
            rw [← countP_and_of_unique (userP u2) _ _ _ hx hle]
            exact countP_removeMatching _ _ st
          have hcd : ∀ u2, (removeMatching (keyMatch uid e) st).countP (defP u2)
              + (if defP u2 r0 then 1 else 0) = st.countP (defP u2) := by
            intro u2
            rw [← countP_and_of_unique (defP u2) _ _ _ hx hle]
            exact countP_removeMatching _ _ st
          by_cases hdef : r0.isDefault = true
          · rw [if_pos hdef]
            cases hmin : minByCreated (userRows uid (removeMatching (keyMatch uid e) st)) with
            | none =>
                simp only [promoteOldest, hmin]
                constructor
                · exact hKst1
                · intro u2 hupos2
                  by_cases hu : u2 = uid
                  · exfalso
                    have hnil : userRows uid (removeMatching (keyMatch uid e) st) = [] := by
                      cases hur : userRows uid (removeMatching (keyMatch uid e) st) with
                      | nil => rfl
                      | cons a l =>
                          rw [hur] at hmin
                          exact absurd hmin minByCreated_ne_none
                    have hz : countUser uid (removeMatching (keyMatch uid e) st) = 0 := by
                      rw [← length_userRows, hnil]
                      rfl
                    rw [countUser] at hz
                    rw [countUser, hu] at hupos2
                    omega
                  · have h1 : userP u2 r0 = false := by
                      simp only [userP, hk0'.1, beq_eq_false_iff_ne, ne_eq]
                      exact fun hcon => hu hcon.symm
                    have h2 : defP u2 r0 = false := by
                      simp only [defP, hk0'.1, Bool.and_eq_false_iff,
                        beq_eq_false_iff_ne, ne_eq]
                      exact Or.inl (fun hcon => hu hcon.symm)
                    have hcu2 := hcu u2
                    have hcd2 := hcd u2
                    rw [h1] at hcu2
                    rw [h2] at hcd2
                    simp only [Bool.false_eq_true, if_false] at hcu2 hcd2
                    rw [countDefaults]
                    rw [countUser] at hupos2
                    have h3 : countDefaults u2 st = 1 :=
                      hS u2 (by rw [countUser]; omega)
                    rw [countDefaults] at h3
                    omega
            | some p =>
                simp only [promoteOldest, hmin]
                have hpmem' := mem_userRows.mp (minByCreated_mem hmin)
                constructor
                · exact keysOk_setDef_map _ _ _ hKst1
                · intro u2 hupos2
                  by_cases hu : u2 = uid
                  · rw [hu] at hupos2 ⊢
                    rw [countUser_setDef_map] at hupos2
                    have h1 : (if userP uid r0 then 1 else 0) = 1 := by
                      simp [userP, hk0'.1]
                    have h2 : (if defP uid r0 then 1 else 0) = 1 := by
                      simp [defP, hk0'.1, hdef]
                    have hcu2 := hcu uid
                    have hcd2 := hcd uid
                    rw [h1] at hcu2
                    rw [h2] at hcd2
                    rw [countUser] at hupos2
                    have h3 : countDefaults uid st = 1 :=
                      hS uid (by rw [countUser]; omega)
                    rw [countDefaults] at h3
                    have hzero : countDefaults uid (removeMatching (keyMatch uid e) st) = 0 := by
                      rw [countDefaults]
                      omega
                    rw [countDefaults_mapUpdate_set_true (setDefaultUpd now)
                          (fun r => ⟨rfl, rfl⟩) hzero]
                    exact countP_key_eq_one hKst1 hpmem'.1
                      (keyMatch_eq_true_iff.mpr ⟨hpmem'.2, rfl⟩)
                  · rw [countDefaults_setDef_map_ne _ _ hu]
                    rw [countUser_setDef_map] at hupos2
                    have h1 : userP u2 r0 = false := by
                      simp only [userP, hk0'.1, beq_eq_false_iff_ne, ne_eq]
                      exact fun hcon => hu hcon.symm
                    have h2 : defP u2 r0 = false := by
                      simp only [defP, hk0'.1, Bool.and_eq_false_iff,
                        beq_eq_false_iff_ne, ne_eq]
                      exact Or.inl (fun hcon => hu hcon.symm)
                    have hcu2 := hcu u2
                    have hcd2 := hcd u2
                    rw [h1] at hcu2
                    rw [h2] at hcd2
                    simp only [Bool.false_eq_true, if_false] at hcu2 hcd2
                    rw [countDefaults]
                    rw [countUser] at hupos2
                    have h3 : countDefaults u2 st = 1 :=
                      hS u2 (by rw [countUser]; omega)
                    rw [countDefaults] at h3
                    omega
          · rw [if_neg hdef]
            have hdef2 : r0.isDefault = false := by
              revert hdef
              cases r0.isDefault <;> simp
            constructor
            · exact hKst1
            · intro u2 hupos2
              have h2 : defP u2 r0 = false := by
                simp [defP, hdef2]
              have hcu2 := hcu u2
              have hcd2 := hcd u2
              rw [h2] at hcd2
              simp only [Bool.false_eq_true, if_false] at hcd2
              have hit : (if userP u2 r0 then 1 else 0) ≤ 1 := by
                split <;> omega
              rw [countDefaults]
              rw [countUser] at hupos2
              have h3 : countDefaults u2 st = 1 :=
                hS u2 (by rw [countUser]; omega)
              rw [countDefaults] at h3
              omega

theorem setDef_preserves (now : Int) (uid email : String)
    (st : List AccountRow) (hK : KeysOk st) (hS : SingleDefault st) :
    KeysOk ((setDefaultAccount now uid email st).getD st)
      ∧ SingleDefault ((setDefaultAccount now uid email st).getD st) := by
  by_cases hx : (findRow uid email st).isSome
  · rw [setDefaultAccount, if_pos hx, Option.getD_some]
    rcases Option.isSome_iff_exists.mp hx with ⟨r0, hr0eq⟩
    have hr0 : r0 ∈ st := List.mem_of_find?_eq_some hr0eq
    have hk0 : keyMatch uid email r0 = true := List.find?_some hr0eq
    constructor
    · exact keysOk_setDef_map _ _ _ (keysOk_clearDefaults hK)
    · intro u2 hupos
      by_cases hu : u2 = uid
      · rw [hu]
        rw [countDefaults_mapUpdate_set_true (setDefaultUpd now)
              (fun r => ⟨rfl, rfl⟩) (countDefaults_clearDefaults_self uid st),
           countP_keyMatch_clearDefaults]
        exact countP_key_eq_one hK hr0 hk0
      · rw [countDefaults_setDef_map_ne _ _ hu,
           countDefaults_clearDefaults_ne hu]
        rw [countUser_setDef_map, countUser_clearDefaults] at hupos
        exact hS u2 hupos
  · rw [setDefaultAccount, if_neg hx, Option.getD_none]
    exact ⟨hK, hS⟩

theorem applyOp_preserves (st : List AccountRow) (op : StoreOp)
    (hK : KeysOk st) (hS : SingleDefault st) :
    KeysOk (applyOp st op) ∧ SingleDefault (applyOp st op) := by
  cases op with
  | save now c => exact save_preserves now c st hK hS
  | del now uid email => exact delete_preserves now uid email st hK hS
  | setDef now uid email => exact setDef_preserves now uid email st hK hS

theorem foldl_preserves (ops : List StoreOp) :
    ∀ st : List AccountRow, KeysOk st → SingleDefault st →
      KeysOk (ops.foldl applyOp st) ∧ SingleDefault (ops.foldl applyOp st) := by
  induction ops with
  | nil =>
      intro st hK hS
      exact ⟨hK, hS⟩
  | cons op rest ih =>
      intro st hK hS
      rw [List.foldl_cons]
      obtain ⟨hK2, hS2⟩ := applyOp_preserves st op hK hS
      exact ih _ hK2 hS2

theorem runOps_invariant (ops : List StoreOp) :
    KeysOk (runOps ops) ∧ SingleDefault (runOps ops) := by
  rw [runOps]
  apply foldl_preserves
  · exact List.Pairwise.nil
  · intro uid h
    simp [countUser] at h

theorem findRow_mapUpdate (u e : String) (q : AccountRow → Bool)
    (f : AccountRow → AccountRow)
    (hf : ∀ r, (f r).mcpUserId = r.mcpUserId ∧ (f r).email = r.email)
    (st : List AccountRow) :
    findRow u e (mapUpdate q f st)
      = (findRow u e st).map (fun r => if q r then f r else r) :=
  find?_mapUpdate_key u e q f hf st

theorem findRow_clearDefaults (u e u2 : String) (st : List AccountRow) :
    findRow u e (clearDefaults u2 st)
      = (findRow u e st).map
          (fun r => if userP u2 r then { r with isDefault := false } else r) := by
  rw [clearDefaults]
  exact find?_mapUpdate_key u e (userP u2)
    (fun r => { r with isDefault := false }) (fun r => ⟨rfl, rfl⟩) st

theorem findRow_save_of_existing (now : Int) (c : CredInput)
    (st : List AccountRow) (r0 : AccountRow)
    (hx : findRow c.mcpUserId c.email st = some r0) :
    findRow c.mcpUserId c.email (saveCredentials now c st)
      = some { mcpUserId := r0.mcpUserId
               email := r0.email
               googleUserId := c.googleUserId
               accessToken := c.accessToken
               refreshToken := c.refreshToken
               expiryDate := c.expiryDate
               scope := c.scope
               isDefault := c.isDefault || r0.isDefault
               createdAt := r0.createdAt
               updatedAt := now } := by
  have hk0 : keyMatch c.mcpUserId c.email r0 = true := List.find?_some hx
  have hk0' := keyMatch_eq_true_iff.mp hk0
  rw [saveCredentials_of_existing now c st r0 hx,
     findRow_mapUpdate _ _ _ (saveUpd now c (c.isDefault || r0.isDefault))
       (fun r => ⟨rfl, rfl⟩)]
  split
  · rw [findRow_clearDefaults, hx]
    simp [hk0'.1, hk0'.2, saveUpd]
  · rw [hx, Option.map_some', if_pos hk0]
    rfl

theorem findRow_save_of_new (now : Int) (c : CredInput)
    (st : List AccountRow)
    (hx : findRow c.mcpUserId c.email st = none) :
    findRow c.mcpUserId c.email (saveCredentials now c st)
      = some (newRowOf now c
          ((userRows c.mcpUserId st).length == 0 || c.isDefault)) := by
  rw [saveCredentials_of_new now c st hx, findRow, List.find?_append]
  have h1 : (if ((userRows c.mcpUserId st).length == 0 || c.isDefault)
        ∧ 0 < (userRows c.mcpUserId st).length
      then clearDefaults c.mcpUserId st
      else st).find? (keyMatch c.mcpUserId c.email) = none := by
    split
    · have h2 := findRow_clearDefaults c.mcpUserId c.email c.mcpUserId st
      rw [hx] at h2
      exact h2
    · exact hx
  rw [h1, Option.none_or]
  rw [List.find?_cons_of_pos _ (by rw [keyMatch_eq_true_iff]; exact ⟨rfl, rfl⟩)]

theorem findRow_save_scope (now : Int) (c : CredInput)
    (st : List AccountRow) :
    (findRow c.mcpUserId c.email (saveCredentials now c st)).map
      AccountRow.scope = some c.scope := by
  cases hx : findRow c.mcpUserId c.email st with
  | some r0 => rw [findRow_save_of_existing now c st r0 hx]; rfl
  | none => rw [findRow_save_of_new now c st hx]; rfl

theorem save_first (now : Int) (c : CredInput) :
    saveCredentials now c [] = [newRowOf now c true] := rfl

theorem save_new_nondefault (now : Int) (c : CredInput)
    (st : List AccountRow)
    (hx : findRow c.mcpUserId c.email st = none)
    (hflag : c.isDefault = false)
    (hne : (userRows c.mcpUserId st).length ≠ 0) :
    saveCredentials now c st = st ++ [newRowOf now c false] := by
  rw [saveCredentials_of_new now c st hx]
  have hbe : ((userRows c.mcpUserId st).length == 0) = false := by
    cases hl : (userRows c.mcpUserId st).length
    · exact absurd hl hne
    · rfl
  rw [hbe, hflag, Bool.false_or]
  rw [if_neg (by simp)]

theorem length_listAccounts (uid : String) (st : List AccountRow) :
    (listAccounts uid st).length = (userRows uid st).length := by
  rw [listAccounts, List.length_map, List.length_mergeSort]

theorem mem_listAccounts_ex {uid : String} {st : List AccountRow}
    {a : AccountInfo} (h : a ∈ listAccounts uid st) :
    ∃ r ∈ st, r.mcpUserId = uid ∧ a.email = r.email := by
  rw [listAccounts] at h
  rcases List.mem_map.mp h with ⟨r, hr, rfl⟩
  rw [List.mem_mergeSort] at hr
  have h2 := mem_userRows.mp hr
  exact ⟨r, h2.1, h2.2, rfl⟩

/-! ### One-time OAuth state -/

theorem consume_fst_some {now : Int} {S : String}
    {st st' : List OAuthStateRow} {rec : OAuthStateRow}
    (h : consumeOAuthState now S st = (some rec, st')) :
    st' = removeMatching (fun r2 => r2.state == S) st := by
  unfold consumeOAuthState at h
  cases hf : st.find? (fun r => r.state == S && decide (now < r.expiresAt)) with
  | none =>
      rw [hf] at h
      exact absurd (congrArg Prod.fst h) (by simp)
  | some r =>
      rw [hf] at h
      exact (congrArg Prod.snd h).symm

theorem no_token_of_remove (S : String) (st : List OAuthStateRow) :
    ∀ r ∈ removeMatching (fun r2 : OAuthStateRow => r2.state == S) st,
      r.state ≠ S := by
  intro r hr
  rw [removeMatching, List.mem_filter] at hr
  simpa using hr.2

theorem consume_none_of_no_token {S : String} {st : List OAuthStateRow}
    (h : ∀ r ∈ st, r.state ≠ S) (now : Int) :
    (consumeOAuthState now S st).1 = none := by
  unfold consumeOAuthState
  cases hf : st.find? (fun r => r.state == S && decide (now < r.expiresAt)) with
  | none => rfl
  | some r =>
      exfalso
      have hmem := List.mem_of_find?_eq_some hf
      have hp := List.find?_some hf
      rw [Bool.and_eq_true, beq_iff_eq] at hp
      exact h r hmem hp.1

theorem applyStateOp_mem {st : List OAuthStateRow} {op : StateOp}
    {r : OAuthStateRow} (hr : r ∈ applyStateOp st op) : r ∈ st := by
  cases op with
  | consume n t =>
      rw [applyStateOp] at hr
      unfold consumeOAuthState at hr
      cases hf : st.find? (fun r2 => r2.state == t && decide (n < r2.expiresAt)) with
      | none =>
          rw [hf] at hr
          exact hr
      | some r2 =>
          rw [hf] at hr
          rw [removeMatching, List.mem_filter] at hr
          exact hr.1
  | cleanup n =>
      rw [applyStateOp, cleanupExpiredStates, removeMatching,
        List.mem_filter] at hr
      exact hr.1

theorem stateOps_preserve_no_token {S : String} :
    ∀ (ops : List StateOp) (st : List OAuthStateRow),
      (∀ r ∈ st, r.state ≠ S) →
        ∀ r ∈ runStateOps st ops, r.state ≠ S := by
  intro ops
  induction ops with
  | nil =>
      intro st h
      exact h
  | cons op rest ih =>
      intro st h
      rw [runStateOps, List.foldl_cons]
      exact ih (applyStateOp st op)
        (fun r hr => h r (applyStateOp_mem hr))

/-! ### Deletion of a single account -/

theorem not_key_of_mem_remove {uid e : String} {st : List AccountRow}
    {r : AccountRow} (hr : r ∈ removeMatching (keyMatch uid e) st) :
    keyMatch uid e r = false := by
  rw [removeMatching, List.mem_filter] at hr
  rw [Bool.eq_false_iff]
  intro hcon
  rw [hcon] at hr
  simpa using hr.2

theorem findRow_deleteCredentials_self (now : Int) (uid e : String)
    (st : List AccountRow) :
    findRow uid e (deleteCredentials now uid (some e) st) = none := by
  have hbase : findRow uid e (removeMatching (keyMatch uid e) st) = none := by
    rw [findRow, List.find?_eq_none]
    intro r hr
    rw [not_key_of_mem_remove hr]
    simp
  cases hx : findRow uid e st with
  | none =>
      simp only [deleteCredentials, hx]
      exact hbase
  | some r0 =>
      simp only [deleteCredentials, hx]
      by_cases hdef : r0.isDefault = true
      · rw [if_pos hdef]
        cases hmin : minByCreated
            (userRows uid (removeMatching (keyMatch uid e) st)) with
        | none =>
            simp only [promoteOldest, hmin]
            exact hbase
        | some p =>
            simp only [promoteOldest, hmin]
            rw [findRow_mapUpdate _ _ _ (setDefaultUpd now)
                  (fun r => ⟨rfl, rfl⟩), hbase]
            rfl
      · rw [if_neg hdef]
        exact hbase

theorem findRow_deleteCredentials_other (now : Int) (uid e : String)
    (st : List AccountRow) (u2 e2 : String)
    (hne : ¬(u2 = uid ∧ e2 = e)) :
    (findRow u2 e2 (deleteCredentials now uid (some e) st)).isSome
      ↔ (findRow u2 e2 st).isSome := by
  have hstep : (findRow u2 e2 (removeMatching (keyMatch uid e) st)).isSome
      ↔ (findRow u2 e2 st).isSome := by
    rw [findRow, findRow, List.find?_isSome, List.find?_isSome]
    constructor
    · rintro ⟨x, hx1, hx2⟩
      rw [removeMatching, List.mem_filter] at hx1
      exact ⟨x, hx1.1, hx2⟩
    · rintro ⟨x, hx1, hx2⟩
      refine ⟨x, ?_, hx2⟩
      rw [removeMatching, List.mem_filter]
      refine ⟨hx1, ?_⟩
      have hx2' := keyMatch_eq_true_iff.mp hx2
      cases hkm : keyMatch uid e x with
      | false => rfl
      | true =>
          exfalso
          have hkm' := keyMatch_eq_true_iff.mp hkm
          exact hne ⟨hx2'.1.symm.trans hkm'.1, hx2'.2.symm.trans hkm'.2⟩
  cases hx : findRow uid e st with
  | none =>
      simp only [deleteCredentials, hx]
      exact hstep
  | some r0 =>
      simp only [deleteCredentials, hx]
      by_cases hdef : r0.isDefault = true
      · rw [if_pos hdef]
        cases hmin : minByCreated
            (userRows uid (removeMatching (keyMatch uid e) st)) with
        | none =>
            simp only [promoteOldest, hmin]
            exact hstep
        | some p =>
            simp only [promoteOldest, hmin]
            rw [findRow_mapUpdate _ _ _ (setDefaultUpd now)
                  (fun r => ⟨rfl, rfl⟩)]
            rw [← hstep]
            cases findRow u2 e2 (removeMatching (keyMatch uid e) st) with
            | none => exact Iff.rfl
            | some y => exact Iff.rfl
      · rw [if_neg hdef]
        exact hstep

/-! ### The claims -/

/-- C1: for every principal and every sequence of store operations
(saveCredentials connect/reconnect, deleteCredentials, setDefaultAccount)
run from the fresh table, whenever the principal has at least one account
afterwards, exactly one of that principal's accounts has
`isDefault = true`. -/
theorem store_single_default_invariant (ops : List StoreOp) (uid : String)
    (h : userRows uid (runOps ops) ≠ []) :
    countDefaults uid (runOps ops) = 1 :=
  (runOps_invariant ops).2 uid (userRows_ne_nil_iff.mp h)

theorem store_single_default_invariant_witness :
    userRows "u1" (runOps [StoreOp.save 1 (mkCred "u1" "a@x" false)]) ≠ []
      ∧ countDefaults "u1" (runOps [StoreOp.save 1 (mkCred "u1" "a@x" false)]) = 1 :=
  ⟨by decide,
   store_single_default_invariant [StoreOp.save 1 (mkCred "u1" "a@x" false)]
     "u1" (by decide)⟩

/-- C2: once `consumeOAuthState` has succeeded for a state token, every
subsequent consume of that token (after any further consume or cleanup
operations) returns `none`. -/
theorem oauth_state_consume_at_most_once (now1 : Int) (S : String)
    (st st' : List OAuthStateRow) (rec : OAuthStateRow)
    (h : consumeOAuthState now1 S st = (some rec, st'))
    (ops : List StateOp) (now2 : Int) :
    (consumeOAuthState now2 S (runStateOps st' ops)).1 = none :=
  consume_none_of_no_token
    (stateOps_preserve_no_token ops st'
      (by rw [consume_fst_some h]; exact no_token_of_remove S st)) now2

theorem oauth_state_consume_at_most_once_witness :
    consumeOAuthState 0 "S" [⟨"S", "u", 10, ["gmail.readonly"], "v"⟩]
        = (some ⟨"S", "u", 10, ["gmail.readonly"], "v"⟩, [])
      ∧ (consumeOAuthState 5 "S" (runStateOps [] [])).1 = none :=
  ⟨by decide,
   oauth_state_consume_at_most_once 0 "S"
     [⟨"S", "u", 10, ["gmail.readonly"], "v"⟩] []
     ⟨"S", "u", 10, ["gmail.readonly"], "v"⟩ (by decide) [] 5⟩

/-- C3: a refresh failure whose message contains `invalid_grant` deletes
exactly the refreshed account — it is gone from `findRow` and from
`listAccounts` — the caller receives the re-authorize
`NotAuthorizedError`, and every other `(principal, email)` account of any
principal is still present exactly when it was present before. -/
theorem revocation_deletes_only_that_account (enc : String → String)
    (now : Int) (msg : String) (credentials : AccountRow)
    (st : List AccountRow) (hmsg : containsInvalidGrant msg = true) :
    (refreshCredentials enc now (RefreshResponse.err msg) credentials st).2
        = Except.error (ClientError.notAuthorized
            ("Gmail access for " ++ credentials.email ++ " revoked. Please re-authorize."))
      ∧ findRow credentials.mcpUserId credentials.email
          (refreshCredentials enc now (RefreshResponse.err msg) credentials st).1 = none
      ∧ (∀ a ∈ listAccounts credentials.mcpUserId
            (refreshCredentials enc now (RefreshResponse.err msg) credentials st).1,
          a.email ≠ credentials.email)
      ∧ (∀ u e : String, ¬(u = credentials.mcpUserId ∧ e = credentials.email) →
          ((findRow u e
              (refreshCredentials enc now (RefreshResponse.err msg) credentials st).1).isSome
            ↔ (findRow u e st).isSome)) := by
  have hred : refreshCredentials enc now (RefreshResponse.err msg) credentials st
      = (deleteCredentials now credentials.mcpUserId (some credentials.email) st,
         Except.error (ClientError.notAuthorized
           ("Gmail access for " ++ credentials.email ++ " revoked. Please re-authorize."))) := by
    simp [refreshCredentials, hmsg]
  rw [hred]
  refine ⟨rfl, ?_, ?_, ?_⟩
  · exact findRow_deleteCredentials_self now credentials.mcpUserId credentials.email st
  · intro a ha hcon
    rcases mem_listAccounts_ex ha with ⟨r, hrmem, hruid, haemail⟩
    have hkey : keyMatch credentials.mcpUserId credentials.email r = true :=
      keyMatch_eq_true_iff.mpr ⟨hruid, haemail.symm.trans hcon⟩
    have hnone := findRow_deleteCredentials_self now credentials.mcpUserId credentials.email st
    rw [findRow, List.find?_eq_none] at hnone
    exact (hnone r hrmem) hkey
  · intro u e hne
    exact findRow_deleteCredentials_other now credentials.mcpUserId credentials.email st u e hne

theorem revocation_deletes_only_that_account_witness :
    containsInvalidGrant "error: invalid_grant" = true
      ∧ (let credentials : AccountRow := ⟨"u1", "a@x", "a@x", "at", "rt", 0, "s", true, 1, 1⟩
         let st : List AccountRow := [credentials]
         (refreshCredentials id 0 (RefreshResponse.err "error: invalid_grant") credentials st).2
             = Except.error (ClientError.notAuthorized
                 ("Gmail access for " ++ credentials.email ++ " revoked. Please re-authorize."))
           ∧ findRow credentials.mcpUserId credentials.email
               (refreshCredentials id 0 (RefreshResponse.err "error: invalid_grant") credentials st).1 = none
           ∧ (∀ a ∈ listAccounts credentials.mcpUserId
                 (refreshCredentials id 0 (RefreshResponse.err "error: invalid_grant") credentials st).1,
               a.email ≠ credentials.email)
           ∧ (∀ u e : String, ¬(u = credentials.mcpUserId ∧ e = credentials.email) →
               ((findRow u e
                   (refreshCredentials id 0 (RefreshResponse.err "error: invalid_grant") credentials st).1).isSome
                 ↔ (findRow u e st).isSome))) :=
  ⟨by decide,
   revocation_deletes_only_that_account id 0 "error: invalid_grant"
     ⟨"u1", "a@x", "a@x", "at", "rt", 0, "s", true, 1, 1⟩
     [⟨"u1", "a@x", "a@x", "at", "rt", 0, "s", true, 1, 1⟩] (by decide)⟩

/-- C4: `getValidCredentials` runs the refresh path exactly when
`expiryDate - now < REFRESH_THRESHOLD_MS` (5 minutes): with
expiry = now + 4 minutes it refreshes, and with expiry = now + 1 hour it
returns the stored credentials with no refresh call and no store write. -/
theorem refresh_threshold_boundary (enc : String → String) (now : Int)
    (uid : String) (email : Option String) (resp : RefreshResponse)
    (st : List AccountRow) (credentials : AccountRow)
    (h : getCredentials uid email st = some credentials) :
    ((getValidCredentials enc now uid email resp st).refreshCalled = true
        ↔ credentials.expiryDate - now < REFRESH_THRESHOLD_MS)
      ∧ (credentials.expiryDate = now + 240000 →
          (getValidCredentials enc now uid email resp st).refreshCalled = true)
      ∧ (credentials.expiryDate = now + 3600000 →
          getValidCredentials enc now uid email resp st
            = ⟨st, Except.ok credentials, false⟩) := by
  simp only [getValidCredentials, h]
  by_cases hth : credentials.expiryDate - now < REFRESH_THRESHOLD_MS
  · rw [if_pos hth]
    refine ⟨⟨fun _ => hth, fun _ => rfl⟩, fun _ => rfl, fun hexp => ?_⟩
    exfalso
    rw [hexp] at hth
    simp only [REFRESH_THRESHOLD_MS] at hth
    omega
  · rw [if_neg hth]
    refine ⟨⟨fun hcon => absurd hcon (by simp), fun hcon => absurd hcon hth⟩,
      fun hexp => ?_, fun _ => rfl⟩
    exfalso
    apply hth
    rw [hexp]
    simp only [REFRESH_THRESHOLD_MS]
    omega

theorem refresh_threshold_boundary_witness :
    getCredentials "u1" none
        [(⟨"u1", "a@x", "a@x", "at", "rt", 240000, "s", true, 1, 1⟩ : AccountRow)]
        = some ⟨"u1", "a@x", "a@x", "at", "rt", 240000, "s", true, 1, 1⟩
      ∧ (let credentials : AccountRow := ⟨"u1", "a@x", "a@x", "at", "rt", 240000, "s", true, 1, 1⟩
         let st : List AccountRow := [credentials]
         ((getValidCredentials id 0 "u1" none (RefreshResponse.err "network error") st).refreshCalled = true
            ↔ credentials.expiryDate - 0 < REFRESH_THRESHOLD_MS)
          ∧ (credentials.expiryDate = 0 + 240000 →
              (getValidCredentials id 0 "u1" none (RefreshResponse.err "network error") st).refreshCalled = true)
          ∧ (credentials.expiryDate = 0 + 3600000 →
              getValidCredentials id 0 "u1" none (RefreshResponse.err "network error") st
                = ⟨st, Except.ok credentials, false⟩)) :=
  ⟨by decide,
   refresh_threshold_boundary id 0 "u1" none (RefreshResponse.err "network error")
     [⟨"u1", "a@x", "a@x", "at", "rt", 240000, "s", true, 1, 1⟩]
     ⟨"u1", "a@x", "a@x", "at", "rt", 240000, "s", true, 1, 1⟩ (by decide)⟩

/-- C7: re-saving credentials for an existing `(principal, email)` pair
keeps the stored default flag unless the caller explicitly requests the
default: the resulting flag is `c.isDefault || old flag`, so a default
account stays default after any reconnect. -/
theorem reconnect_preserves_default_flag (now : Int) (c : CredInput)
    (st : List AccountRow) (r0 : AccountRow)
    (hx : findRow c.mcpUserId c.email st = some r0) :
    ((findRow c.mcpUserId c.email (saveCredentials now c st)).map
        AccountRow.isDefault = some (c.isDefault || r0.isDefault))
      ∧ (r0.isDefault = true →
        (findRow c.mcpUserId c.email (saveCredentials now c st)).map
          AccountRow.isDefault = some true) := by
  have h := findRow_save_of_existing now c st r0 hx
  constructor
  · rw [h]
    rfl
  · intro hd
    rw [h, hd]
    simp

theorem reconnect_preserves_default_flag_witness :
    findRow (mkCred "u1" "a@x" false).mcpUserId (mkCred "u1" "a@x" false).email
        [(⟨"u1", "a@x", "g", "at", "rt", 7, "s", true, 1, 2⟩ : AccountRow)]
        = some ⟨"u1", "a@x", "g", "at", "rt", 7, "s", true, 1, 2⟩
      ∧ (((findRow (mkCred "u1" "a@x" false).mcpUserId (mkCred "u1" "a@x" false).email
            (saveCredentials 5 (mkCred "u1" "a@x" false)
              [⟨"u1", "a@x", "g", "at", "rt", 7, "s", true, 1, 2⟩])).map
              AccountRow.isDefault
            = some ((mkCred "u1" "a@x" false).isDefault
                || (⟨"u1", "a@x", "g", "at", "rt", 7, "s", true, 1, 2⟩ : AccountRow).isDefault))
          ∧ ((⟨"u1", "a@x", "g", "at", "rt", 7, "s", true, 1, 2⟩ : AccountRow).isDefault = true →
            (findRow (mkCred "u1" "a@x" false).mcpUserId (mkCred "u1" "a@x" false).email
              (saveCredentials 5 (mkCred "u1" "a@x" false)
                [⟨"u1", "a@x", "g", "at", "rt", 7, "s", true, 1, 2⟩])).map
                AccountRow.isDefault = some true)) :=
  ⟨by decide,
   reconnect_preserves_default_flag 5 (mkCred "u1" "a@x" false)
     [⟨"u1", "a@x", "g", "at", "rt", 7, "s", true, 1, 2⟩]
     ⟨"u1", "a@x", "g", "at", "rt", 7, "s", true, 1, 2⟩ (by decide)⟩

/-- C8: a refresh failure that is not a revocation signal — a rejection
whose message lacks `invalid_grant`, or a response with no access token —
returns the retryable `GmailApiError` and leaves the store completely
unchanged. -/
theorem transient_refresh_leaves_store_unchanged (enc : String → String)
    (now : Int) (credentials : AccountRow) (st : List AccountRow) :
    (∀ msg, containsInvalidGrant msg = false →
        refreshCredentials enc now (RefreshResponse.err msg) credentials st
          = (st, Except.error (ClientError.gmailApiError
              ("Token refresh failed: " ++ msg))))
      ∧ (∀ t : ProviderTokens, t.accessToken = none →
          refreshCredentials enc now (RefreshResponse.ok t) credentials st
            = (st, Except.error (ClientError.gmailApiError
                "Token refresh failed: No access token returned"))) := by
  constructor
  · intro msg hm
    simp [refreshCredentials, hm]
  · intro t ht
    simp [refreshCredentials, ht]

theorem transient_refresh_leaves_store_unchanged_witness :
    containsInvalidGrant "network error" = false
      ∧ refreshCredentials id 0 (RefreshResponse.err "network error")
          ⟨"u1", "a@x", "a@x", "at", "rt", 0, "s", true, 1, 1⟩
          [⟨"u1", "a@x", "a@x", "at", "rt", 0, "s", true, 1, 1⟩]
        = ([⟨"u1", "a@x", "a@x", "at", "rt", 0, "s", true, 1, 1⟩],
           Except.error (ClientError.gmailApiError
             ("Token refresh failed: " ++ "network error"))) :=
  ⟨by decide,
   (transient_refresh_leaves_store_unchanged id 0
     ⟨"u1", "a@x", "a@x", "at", "rt", 0, "s", true, 1, 1⟩
     [⟨"u1", "a@x", "a@x", "at", "rt", 0, "s", true, 1, 1⟩]).1
     "network error" (by decide)⟩

/-- C9: the scope string persisted by the callback's save is derived
solely from the scope names in the consumed OAuth state; the provider's
echoed scope field of the token response is never read, so any two echoed
values yield the same store. -/
theorem persisted_scopes_from_requested_only (enc : String → String)
    (now : Int) (storedState : OAuthStateRow) (tokens : ProviderTokens)
    (profileEmail : String) (st : List AccountRow)
    (hA : tokens.accessToken.isSome = true)
    (hR : tokens.refreshToken.isSome = true) :
    ((findRow storedState.mcpUserId profileEmail
        (completeAuthSave enc now storedState tokens profileEmail st)).map
          AccountRow.scope = some (joinedScopeString storedState.scopes))
      ∧ (∀ s1 s2 : Option String,
          completeAuthSave enc now storedState
              { tokens with scope := s1 } profileEmail st
            = completeAuthSave enc now storedState
              { tokens with scope := s2 } profileEmail st) := by
  constructor
  · rcases Option.isSome_iff_exists.mp hA with ⟨at0, hat⟩
    rcases Option.isSome_iff_exists.mp hR with ⟨rt0, hrt⟩
    simp only [completeAuthSave, hat, hrt]
    exact findRow_save_scope now
      { mcpUserId := storedState.mcpUserId, googleUserId := profileEmail,
        email := profileEmail, accessToken := at0, refreshToken := enc rt0,
        expiryDate := tokens.expiryDate.getD (now + 3600000),
        scope := joinedScopeString storedState.scopes,
        isDefault := (listAccounts storedState.mcpUserId st).length == 0 } st
  · intro s1 s2
    cases tokens
    rfl

theorem persisted_scopes_from_requested_only_witness :
    (mkTokens.accessToken.isSome = true ∧ mkTokens.refreshToken.isSome = true)
      ∧ (((findRow (mkState "u1").mcpUserId "a@x"
            (completeAuthSave id 1 (mkState "u1") mkTokens "a@x" [])).map
              AccountRow.scope = some (joinedScopeString (mkState "u1").scopes))
          ∧ (∀ s1 s2 : Option String,
              completeAuthSave id 1 (mkState "u1")
                  { mkTokens with scope := s1 } "a@x" []
                = completeAuthSave id 1 (mkState "u1")
                  { mkTokens with scope := s2 } "a@x" [])) :=
  ⟨⟨by decide, by decide⟩,
   persisted_scopes_from_requested_only id 1 (mkState "u1") mkTokens "a@x" []
     (by decide) (by decide)⟩

/-- C10: a reconnect (saveCredentials on an existing `(principal, email)`
pair) keeps the stored `createdAt` timestamp and sets `updatedAt` to the
write time. -/
theorem reconnect_preserves_createdAt (now : Int) (c : CredInput)
    (st : List AccountRow) (r0 : AccountRow)
    (hx : findRow c.mcpUserId c.email st = some r0) :
    ((findRow c.mcpUserId c.email (saveCredentials now c st)).map
        AccountRow.createdAt = some r0.createdAt)
      ∧ ((findRow c.mcpUserId c.email (saveCredentials now c st)).map
        AccountRow.updatedAt = some now) := by
  have h := findRow_save_of_existing now c st r0 hx
  rw [h]
  exact ⟨rfl, rfl⟩

theorem reconnect_preserves_createdAt_witness :
    findRow (mkCred "u1" "a@x" true).mcpUserId (mkCred "u1" "a@x" true).email
        [(⟨"u1", "a@x", "g", "at", "rt", 7, "s", false, 3, 4⟩ : AccountRow)]
        = some ⟨"u1", "a@x", "g", "at", "rt", 7, "s", false, 3, 4⟩
      ∧ (((findRow (mkCred "u1" "a@x" true).mcpUserId (mkCred "u1" "a@x" true).email
            (saveCredentials 9 (mkCred "u1" "a@x" true)
              [⟨"u1", "a@x", "g", "at", "rt", 7, "s", false, 3, 4⟩])).map
              AccountRow.createdAt
            = some (⟨"u1", "a@x", "g", "at", "rt", 7, "s", false, 3, 4⟩ : AccountRow).createdAt)
          ∧ ((findRow (mkCred "u1" "a@x" true).mcpUserId (mkCred "u1" "a@x" true).email
              (saveCredentials 9 (mkCred "u1" "a@x" true)
                [⟨"u1", "a@x", "g", "at", "rt", 7, "s", false, 3, 4⟩])).map
                AccountRow.updatedAt = some 9)) :=
  ⟨by decide,
   reconnect_preserves_createdAt 9 (mkCred "u1" "a@x" true)
     [⟨"u1", "a@x", "g", "at", "rt", 7, "s", false, 3, 4⟩]
     ⟨"u1", "a@x", "g", "at", "rt", 7, "s", false, 3, 4⟩ (by decide)⟩

theorem findRow_eq_none_of_emails {u e2 : String} {l : List AccountRow}
    (hl : ∀ r ∈ l, r.email ≠ e2) : findRow u e2 l = none := by
  rw [findRow]
  apply List.find?_eq_none.mpr
  intro r hr hcon
  exact hl r hr (keyMatch_eq_true_iff.mp hcon).2

theorem completeAuthSave_mkTokens (enc : String → String) (now : Int)
    (stS : OAuthStateRow) (em : String) (st : List AccountRow) :
    completeAuthSave enc now stS mkTokens em st
      = saveCredentials now
          { mcpUserId := stS.mcpUserId, googleUserId := em, email := em,
            accessToken := "access", refreshToken := enc "refresh",
            expiryDate := 99, scope := joinedScopeString stS.scopes,
            isDefault := (listAccounts stS.mcpUserId st).length == 0 } st := rfl

theorem completeAuthSave_mk (enc : String → String) (now : Int)
    (u em : String) (st : List AccountRow) :
    completeAuthSave enc now (mkState u) mkTokens em st
      = saveCredentials now
          { mcpUserId := u, googleUserId := em, email := em,
            accessToken := "access", refreshToken := enc "refresh",
            expiryDate := 99, scope := joinedScopeString ["gmail.readonly"],
            isDefault := (listAccounts u st).length == 0 } st := rfl

/-- C5: for a principal whose accounts A (default), B, C were created in
that order, deleting A by email promotes B — the oldest remaining account
by `createdAt` — to default, in the same transaction. -/
theorem delete_default_promotes_oldest (u eA eB eC : String)
    (hAB : eA ≠ eB) (hAC : eA ≠ eC) (hBC : eB ≠ eC) :
    ((findRow u eB (deleteCredentials 4 u (some eA)
        (saveCredentials 3 (mkCred u eC false)
          (saveCredentials 2 (mkCred u eB false)
            (saveCredentials 1 (mkCred u eA false) []))))).map
        AccountRow.isDefault = some true)
      ∧ ((findRow u eC (deleteCredentials 4 u (some eA)
          (saveCredentials 3 (mkCred u eC false)
            (saveCredentials 2 (mkCred u eB false)
              (saveCredentials 1 (mkCred u eA false) []))))).map
          AccountRow.isDefault = some false)
      ∧ countDefaults u (deleteCredentials 4 u (some eA)
          (saveCredentials 3 (mkCred u eC false)
            (saveCredentials 2 (mkCred u eB false)
              (saveCredentials 1 (mkCred u eA false) [])))) = 1 := by
  have hBAf : (eB == eA) = false := beq_eq_false_iff_ne.mpr (Ne.symm hAB)
  have hCAf : (eC == eA) = false := beq_eq_false_iff_ne.mpr (Ne.symm hAC)
  have hCBf : (eC == eB) = false := beq_eq_false_iff_ne.mpr (Ne.symm hBC)
  have hBCf : (eB == eC) = false := beq_eq_false_iff_ne.mpr hBC
  have h1 : saveCredentials 1 (mkCred u eA false) []
      = [newRowOf 1 (mkCred u eA false) true] := save_first 1 _
  have hfB : findRow u eB [newRowOf 1 (mkCred u eA false) true] = none := by
    apply findRow_eq_none_of_emails
    intro r hr
    rw [List.mem_singleton] at hr
    subst hr
    exact fun hcon => hAB hcon
  have hneB : (userRows u [newRowOf 1 (mkCred u eA false) true]).length ≠ 0 := by
    simp [userRows, userP, newRowOf, mkCred]
  have h2 : saveCredentials 2 (mkCred u eB false)
        [newRowOf 1 (mkCred u eA false) true]
      = [newRowOf 1 (mkCred u eA false) true,
         newRowOf 2 (mkCred u eB false) false] :=
    save_new_nondefault 2 _ _ hfB rfl hneB
  have hfC : findRow u eC [newRowOf 1 (mkCred u eA false) true,
      newRowOf 2 (mkCred u eB false) false] = none := by
    apply findRow_eq_none_of_emails
    intro r hr
    rcases List.mem_cons.mp hr with rfl | hr2
    · exact fun hcon => hAC hcon
    · rw [List.mem_singleton] at hr2
      subst hr2
      exact fun hcon => hBC hcon
  have hneC : (userRows u [newRowOf 1 (mkCred u eA false) true,
      newRowOf 2 (mkCred u eB false) false]).length ≠ 0 := by
    simp [userRows, userP, newRowOf, mkCred]
  have h3 : saveCredentials 3 (mkCred u eC false)
        [newRowOf 1 (mkCred u eA false) true,
         newRowOf 2 (mkCred u eB false) false]
      = [newRowOf 1 (mkCred u eA false) true,
         newRowOf 2 (mkCred u eB false) false,
         newRowOf 3 (mkCred u eC false) false] :=
    save_new_nondefault 3 _ _ hfC rfl hneC
  have hfA3 : findRow u eA [newRowOf 1 (mkCred u eA false) true,
      newRowOf 2 (mkCred u eB false) false,
      newRowOf 3 (mkCred u eC false) false]
      = some (newRowOf 1 (mkCred u eA false) true) := by
    rw [findRow]
    exact List.find?_cons_of_pos _ (by rw [keyMatch_eq_true_iff]; exact ⟨rfl, rfl⟩)
  have hst1 : removeMatching (keyMatch u eA)
      [newRowOf 1 (mkCred u eA false) true,
       newRowOf 2 (mkCred u eB false) false,
       newRowOf 3 (mkCred u eC false) false]
      = [newRowOf 2 (mkCred u eB false) false,
         newRowOf 3 (mkCred u eC false) false] := by
    simp [removeMatching, List.filter_cons, keyMatch, newRowOf, mkCred,
      hBAf, hCAf]
  have hur : userRows u [newRowOf 2 (mkCred u eB false) false,
      newRowOf 3 (mkCred u eC false) false]
      = [newRowOf 2 (mkCred u eB false) false,
         newRowOf 3 (mkCred u eC false) false] := by
    simp [userRows, userP, newRowOf, mkCred]
  have hmin : minByCreated [newRowOf 2 (mkCred u eB false) false,
      newRowOf 3 (mkCred u eC false) false]
      = some (newRowOf 2 (mkCred u eB false) false) := by
    norm_num [minByCreated, newRowOf, mkCred]
  have h4 : deleteCredentials 4 u (some eA)
      [newRowOf 1 (mkCred u eA false) true,
       newRowOf 2 (mkCred u eB false) false,
       newRowOf 3 (mkCred u eC false) false]
      = [setDefaultUpd 4 (newRowOf 2 (mkCred u eB false) false),
         newRowOf 3 (mkCred u eC false) false] := by
    simp only [deleteCredentials, hfA3]
    have hcond : (newRowOf 1 (mkCred u eA false) true).isDefault = true := rfl
    rw [if_pos hcond, hst1]
    simp only [promoteOldest, hur, hmin]
    simp [mapUpdate, keyMatch, newRowOf, mkCred, setDefaultUpd, hCBf]
    exact Ne.symm hBC
  rw [h1, h2, h3, h4]
  refine ⟨?_, ?_, ?_⟩
  · rw [findRow, List.find?_cons_of_pos _
      (by rw [keyMatch_eq_true_iff]; exact ⟨rfl, rfl⟩)]
    rfl
  · rw [findRow, List.find?_cons_of_neg _
      (by simp [keyMatch, setDefaultUpd, newRowOf, mkCred, hBCf]),
      List.find?_cons_of_pos _
        (by rw [keyMatch_eq_true_iff]; exact ⟨rfl, rfl⟩)]
    rfl
  · simp [countDefaults, defP, List.countP_cons, setDefaultUpd, newRowOf,
      mkCred]

theorem delete_default_promotes_oldest_witness :
    (("a@x" : String) ≠ "b@x" ∧ ("a@x" : String) ≠ "c@x"
        ∧ ("b@x" : String) ≠ "c@x")
      ∧ (((findRow "u1" "b@x" (deleteCredentials 4 "u1" (some "a@x")
            (saveCredentials 3 (mkCred "u1" "c@x" false)
              (saveCredentials 2 (mkCred "u1" "b@x" false)
                (saveCredentials 1 (mkCred "u1" "a@x" false) []))))).map
            AccountRow.isDefault = some true)
        ∧ ((findRow "u1" "c@x" (deleteCredentials 4 "u1" (some "a@x")
            (saveCredentials 3 (mkCred "u1" "c@x" false)
              (saveCredentials 2 (mkCred "u1" "b@x" false)
                (saveCredentials 1 (mkCred "u1" "a@x" false) []))))).map
            AccountRow.isDefault = some false)
        ∧ countDefaults "u1" (deleteCredentials 4 "u1" (some "a@x")
            (saveCredentials 3 (mkCred "u1" "c@x" false)
              (saveCredentials 2 (mkCred "u1" "b@x" false)
                (saveCredentials 1 (mkCred "u1" "a@x" false) [])))) = 1) :=
  ⟨⟨by decide, by decide, by decide⟩,
   delete_default_promotes_oldest "u1" "a@x" "b@x" "c@x"
     (by decide) (by decide) (by decide)⟩

/-- C6: a first connected account becomes default unconditionally, a
later new account gets the default flag exactly as requested, and in the
callback connect scenario A-then-B-then-C for a fresh principal, A is
still the default afterwards. -/
theorem first_connect_wins (enc : String → String) (u eA eB eC : String)
    (hAB : eA ≠ eB) (hAC : eA ≠ eC) (hBC : eB ≠ eC) :
    (∀ (now : Int) (c : CredInput) (st : List AccountRow),
        userRows c.mcpUserId st = [] →
        (findRow c.mcpUserId c.email (saveCredentials now c st)).map
          AccountRow.isDefault = some true)
      ∧ (∀ (now : Int) (c : CredInput) (st : List AccountRow),
          findRow c.mcpUserId c.email st = none →
          userRows c.mcpUserId st ≠ [] →
          (findRow c.mcpUserId c.email (saveCredentials now c st)).map
            AccountRow.isDefault = some c.isDefault)
      ∧ (((findRow u eA (completeAuthSave enc 3 (mkState u) mkTokens eC
            (completeAuthSave enc 2 (mkState u) mkTokens eB
              (completeAuthSave enc 1 (mkState u) mkTokens eA [])))).map
            AccountRow.isDefault = some true)
        ∧ ((findRow u eB (completeAuthSave enc 3 (mkState u) mkTokens eC
            (completeAuthSave enc 2 (mkState u) mkTokens eB
              (completeAuthSave enc 1 (mkState u) mkTokens eA [])))).map
            AccountRow.isDefault = some false)
        ∧ ((findRow u eC (completeAuthSave enc 3 (mkState u) mkTokens eC
            (completeAuthSave enc 2 (mkState u) mkTokens eB
              (completeAuthSave enc 1 (mkState u) mkTokens eA [])))).map
            AccountRow.isDefault = some false)) := by
  refine ⟨?_, ?_, ?_⟩
  · intro now c st hur
    have hx : findRow c.mcpUserId c.email st = none := by
      rw [findRow]
      apply List.find?_eq_none.mpr
      intro r hr hcon
      have hmem : r ∈ userRows c.mcpUserId st :=
        mem_userRows.mpr ⟨hr, (keyMatch_eq_true_iff.mp hcon).1⟩
      rw [hur] at hmem
      cases hmem
    rw [findRow_save_of_new now c st hx, hur]
    rfl
  · intro now c st hx hne
    rw [findRow_save_of_new now c st hx]
    have hbe : ((userRows c.mcpUserId st).length == 0) = false := by
      cases hl : (userRows c.mcpUserId st).length
      · exact absurd (List.length_eq_zero.mp hl) hne
      · rfl
    rw [hbe]
    rfl
  · have hc1 : completeAuthSave enc 1 (mkState u) mkTokens eA []
        = [newRowOf 1
            { mcpUserId := u, googleUserId := eA, email := eA,
              accessToken := "access", refreshToken := enc "refresh",
              expiryDate := 99,
              scope := joinedScopeString ["gmail.readonly"],
              isDefault := true } true] := rfl
    have hfB : findRow u eB (completeAuthSave enc 1 (mkState u) mkTokens eA []) = none := by
      rw [hc1]
      apply findRow_eq_none_of_emails
      intro r hr
      rw [List.mem_singleton] at hr
      subst hr
      exact fun hcon => hAB hcon
    have hneB : (userRows u (completeAuthSave enc 1 (mkState u) mkTokens eA [])).length ≠ 0 := by
      rw [hc1]
      simp [userRows, userP, newRowOf]
    have hbe1 : ((listAccounts u (completeAuthSave enc 1 (mkState u) mkTokens eA [])).length == 0)
        = false := by
      rw [length_listAccounts]
      cases hl : (userRows u (completeAuthSave enc 1 (mkState u) mkTokens eA [])).length
      · exact absurd hl hneB
      · rfl
    have hc2 : completeAuthSave enc 2 (mkState u) mkTokens eB
          (completeAuthSave enc 1 (mkState u) mkTokens eA [])
        = completeAuthSave enc 1 (mkState u) mkTokens eA []
          ++ [newRowOf 2
              { mcpUserId := u, googleUserId := eB, email := eB,
                accessToken := "access", refreshToken := enc "refresh",
                expiryDate := 99,
                scope := joinedScopeString ["gmail.readonly"],
                isDefault := false } false] := by
      rw [completeAuthSave_mk, hbe1]
      exact save_new_nondefault 2 _ _ hfB rfl hneB
    have hfC : findRow u eC (completeAuthSave enc 2 (mkState u) mkTokens eB
        (completeAuthSave enc 1 (mkState u) mkTokens eA [])) = none := by
      rw [hc2, hc1, List.singleton_append]
      apply findRow_eq_none_of_emails
      intro r hr
      rcases List.mem_cons.mp hr with rfl | hr2
      · exact fun hcon => hAC hcon
      · rw [List.mem_singleton] at hr2
        subst hr2
        exact fun hcon => hBC hcon
    have hneC : (userRows u (completeAuthSave enc 2 (mkState u) mkTokens eB
        (completeAuthSave enc 1 (mkState u) mkTokens eA []))).length ≠ 0 := by
      rw [hc2, hc1]
      simp [userRows, userP, newRowOf]
    have hbe2 : ((listAccounts u (completeAuthSave enc 2 (mkState u) mkTokens eB
          (completeAuthSave enc 1 (mkState u) mkTokens eA []))).length == 0)
        = false := by
      rw [length_listAccounts]
      cases hl : (userRows u (completeAuthSave enc 2 (mkState u) mkTokens eB
          (completeAuthSave enc 1 (mkState u) mkTokens eA []))).length
      · exact absurd hl hneC
      · rfl
    have hc3 : completeAuthSave enc 3 (mkState u) mkTokens eC
          (completeAuthSave enc 2 (mkState u) mkTokens eB
            (completeAuthSave enc 1 (mkState u) mkTokens eA []))
        = completeAuthSave enc 2 (mkState u) mkTokens eB
            (completeAuthSave enc 1 (mkState u) mkTokens eA [])
          ++ [newRowOf 3
              { mcpUserId := u, googleUserId := eC, email := eC,
                accessToken := "access", refreshToken := enc "refresh",
                expiryDate := 99,
                scope := joinedScopeString ["gmail.readonly"],
                isDefault := false } false] := by
      rw [completeAuthSave_mk, hbe2]
      exact save_new_nondefault 3 _ _ hfC rfl hneC
    rw [hc3, hc2, hc1]
    simp only [List.singleton_append, List.cons_append, List.nil_append]
    refine ⟨?_, ?_, ?_⟩
    · rw [findRow, List.find?_cons_of_pos _
        (by rw [keyMatch_eq_true_iff]; exact ⟨rfl, rfl⟩)]
      rfl
    · rw [findRow, List.find?_cons_of_neg _
        (by simp [keyMatch, newRowOf, hAB]),
        List.find?_cons_of_pos _
          (by rw [keyMatch_eq_true_iff]; exact ⟨rfl, rfl⟩)]
      rfl
    · rw [findRow, List.find?_cons_of_neg _
        (by simp [keyMatch, newRowOf, hAC]),
        List.find?_cons_of_neg _
          (by simp [keyMatch, newRowOf, hBC]),
        List.find?_cons_of_pos _
          (by rw [keyMatch_eq_true_iff]; exact ⟨rfl, rfl⟩)]
      rfl

theorem first_connect_wins_witness :
    (("a@x" : String) ≠ "b@x" ∧ ("a@x" : String) ≠ "c@x"
        ∧ ("b@x" : String) ≠ "c@x" ∧ userRows "u1" ([] : List AccountRow) = [])
      ∧ ((findRow (mkCred "u1" "a@x" false).mcpUserId (mkCred "u1" "a@x" false).email
            (saveCredentials 1 (mkCred "u1" "a@x" false) [])).map
            AccountRow.isDefault = some true)
      ∧ (((findRow "u1" "a@x" (completeAuthSave id 3 (mkState "u1") mkTokens "c@x"
            (completeAuthSave id 2 (mkState "u1") mkTokens "b@x"
              (completeAuthSave id 1 (mkState "u1") mkTokens "a@x" [])))).map
            AccountRow.isDefault = some true)
        ∧ ((findRow "u1" "b@x" (completeAuthSave id 3 (mkState "u1") mkTokens "c@x"
            (completeAuthSave id 2 (mkState "u1") mkTokens "b@x"
              (completeAuthSave id 1 (mkState "u1") mkTokens "a@x" [])))).map
            AccountRow.isDefault = some false)
        ∧ ((findRow "u1" "c@x" (completeAuthSave id 3 (mkState "u1") mkTokens "c@x"
            (completeAuthSave id 2 (mkState "u1") mkTokens "b@x"
              (completeAuthSave id 1 (mkState "u1") mkTokens "a@x" [])))).map
            AccountRow.isDefault = some false)) :=
  ⟨⟨by decide, by decide, by decide, rfl⟩,
   (first_connect_wins id "u1" "a@x" "b@x" "c@x"
       (by decide) (by decide) (by decide)).1
     1 (mkCred "u1" "a@x" false) [] rfl,
   (first_connect_wins id "u1" "a@x" "b@x" "c@x"
       (by decide) (by decide) (by decide)).2.2⟩

end GmailMcp
